import Mathlib

/-!
Verification of the Octocep n8n-DSL compiler core against its specification.

The development shallowly embeds the generator pipeline of the repository:
runtime JSON values, the node-template registry
(src/generator/nodeTemplates.ts), the expression/template evaluator and the
generator (src/generator/generator.ts), the AST validator
(src/utils/validation.ts) and the compiler orchestration (compiler.ts).
JavaScript randomness (Math.random-backed id generation) is modelled by an
explicit stream of identifiers `ids : Nat -> String` threaded with a counter;
the current time and the process environment are explicit inputs.  Dynamic
type errors thrown by the JavaScript code (calling a string method on a
non-string) are modelled with `Except`.
-/

namespace Octocep

/-- JS numbers.  Only exact decimal values occur in this code base
(positions, spacing, type versions), so rationals model them exactly. -/
abbrev JNum := Rat

/-- JSON-compatible runtime values flowing through the generator. -/
inductive Value where
  | vNull
  | vBool (b : Bool)
  | vNum (n : JNum)
  | vStr (s : String)
  | vArr (elems : List Value)
  | vObj (fields : List (String × Value))

/-- JS truthiness of a value. -/
def Value.truthy : Value → Bool
  | .vNull => false
  | .vBool b => b
  | .vNum n => !(n == 0)
  | .vStr s => !(s == "")
  | .vArr _ => true
  | .vObj _ => true

/-- JS `typeof v === "object"` (true for objects, arrays and null). -/
def Value.isObjectType : Value → Bool
  | .vObj _ => true
  | .vArr _ => true
  | .vNull => true
  | _ => false

/-- A JS plain object: ordered association list of fields. -/
abbrev Obj := List (String × Value)

/-- Lookup by key in an ordered association list (first match). -/
def listGet? {α : Type} : List (String × α) → String → Option α
  | [], _ => none
  | (k2, v) :: rest, k => if k2 = k then some v else listGet? rest k

/-- Key-membership in an ordered association list. -/
def listHas {α : Type} (l : List (String × α)) (k : String) : Bool :=
  (listGet? l k).isSome

/-- JS assignment `o[k] = v` / `Map.set`: overwrite in place, preserving
first-insertion order, else append. -/
def listSet {α : Type} : List (String × α) → String → α → List (String × α)
  | [], k, v => [(k, v)]
  | (k2, w) :: rest, k, v =>
      if k2 = k then (k, v) :: rest else (k2, w) :: listSet rest k v

/-- Field access `o.k`: `undefined` (modelled as vNull) when absent. -/
def jsGet (o : Obj) (k : String) : Value := (listGet? o k).getD .vNull

/-- JS `a || b`. -/
def jsOr (a b : Value) : Value := if a.truthy then a else b

/-- JS `Object.entries` (primitives coerce: strings enumerate characters,
other primitives have no own enumerable properties). -/
def jsEntries : Value → List (String × Value)
  | .vObj l => l
  | .vArr xs => (List.range xs.length).zip xs |>.map fun p => (toString p.1, p.2)
  | .vStr s =>
      (List.range s.toList.length).zip s.toList |>.map
        fun p => (toString p.1, Value.vStr (String.mk [p.2]))
  | _ => []

/-- Rendering of a JS number (only integral values are ever stringified in
this code base). -/
def jsNumToString (n : JNum) : String :=
  if n.den = 1 then toString n.num else toString n

mutual
/-- JS `String(v)` coercion. -/
def jsString : Value → String
  | .vNull => "null"
  | .vBool b => if b then "true" else "false"
  | .vNum n => jsNumToString n
  | .vStr s => s
  | .vArr xs => String.intercalate "," (jsStringList xs)
  | .vObj _ => "[object Object]"

/-- Stringification of array elements (JS array-join coercion). -/
def jsStringList : List Value → List String
  | [] => []
  | v :: rest => jsString v :: jsStringList rest
end

/-- JS `String.prototype.trim` on a character list. -/
def trimChars (cs : List Char) : List Char :=
  ((cs.dropWhile Char.isWhitespace).reverse.dropWhile Char.isWhitespace).reverse

/-- JS `String.prototype.trim`. -/
def jsTrim (s : String) : String := String.mk (trimChars s.toList)

/-- `s.startsWith(p)`. -/
def strStartsWith (s p : String) : Bool := p.toList.isPrefixOf s.toList

/-- JS `s.split(sep)` for a one-character separator. -/
def jsSplitChar (sep : Char) (s : String) : List String :=
  go [] s.toList
where
  go (acc : List Char) : List Char → List String
    | [] => [String.mk acc]
    | c :: rest =>
      if c = sep then String.mk acc :: go [] rest
      else go (acc ++ [c]) rest

/-! Numeric-string test, modelling the JavaScript `!isNaN(Number(s))` checks
of nodeTemplates.ts.  `Number` on a whitespace-only string yields 0 (not NaN);
otherwise the trimmed text must be an optionally signed decimal numeral with
an optional fraction and exponent.  (Hex and Infinity forms never occur in
this code base and are not modelled.) -/

/-- Nonempty all-digit character list. -/
def digits1 (cs : List Char) : Bool := !cs.isEmpty && cs.all Char.isDigit

/-- Decimal mantissa: `digits [. digits]` or `. digits` or `digits .`. -/
def mantissa (cs : List Char) : Bool :=
  let ip := cs.takeWhile Char.isDigit
  match cs.drop ip.length with
  | [] => !ip.isEmpty
  | '.' :: fp => fp.all Char.isDigit && (!ip.isEmpty || !fp.isEmpty)
  | _ => false

/-- Exponent digits with optional sign. -/
def expDigits : List Char → Bool
  | '+' :: t => digits1 t
  | '-' :: t => digits1 t
  | t => digits1 t

/-- Mantissa with optional exponent part. -/
def numericCore (cs : List Char) : Bool :=
  match cs.findIdx? (fun c => c == 'e' || c == 'E') with
  | none => mantissa cs
  | some i => mantissa (cs.take i) && expDigits (cs.drop (i + 1))

/-- Optionally signed numeric body. -/
def signedNumeric : List Char → Bool
  | '+' :: t => numericCore t
  | '-' :: t => numericCore t
  | t => numericCore t

/-- Models `!isNaN(Number(s))` for a string. -/
def isJsNumericString (s : String) : Bool :=
  let t := (jsTrim s).toList
  t.isEmpty || signedNumeric t

/-! The If-node template (src/generator/nodeTemplates.ts, `IfTemplate`). -/

/-- Operator translation table of `IfTemplate.mapOperator`. -/
def IfTemplate.mapOperator (op : String) : String :=
  if op = "==" then "equal"
  else if op = "!=" then "notEqual"
  else if op = ">" then "larger"
  else if op = "<" then "smaller"
  else if op = ">=" then "largerEqual"
  else if op = "<=" then "smallerEqual"
  else "equal"

/-- Right-operand type inference of `IfTemplate.getOperatorType`. -/
def IfTemplate.getOperatorType (value : String) : String :=
  if isJsNumericString value then "number"
  else if value = "true" || value = "false" then "boolean"
  else "string"

/-- Drop an expected literal character sequence from the front. -/
def dropPre : List Char → List Char → Option (List Char)
  | [], cs => some cs
  | _ :: _, [] => none
  | a :: ps, b :: cs => if a = b then dropPre ps cs else none

/-- Length of the maximal whitespace run at the front. -/
def wsRunLen (cs : List Char) : Nat := (cs.takeWhile Char.isWhitespace).length

/-- Alternation order of the comparison-operator group in
`/(.+?)\s*(>=|<=|>|<|==|!=)\s*(.+)/`. -/
def opsList : List String := [">=", "<=", ">", "<", "==", "!="]

/-- After the matched operator: greedy `\s*`, backing off one position when
needed so that `(.+)` can take at least one character; returns group 3. -/
def afterOp (tail : List Char) : Option String :=
  let m := wsRunLen tail
  let rest := tail.drop m
  if rest.isEmpty then
    if m > 0 then some (String.mk (tail.drop (m - 1))) else none
  else some (String.mk rest)

/-- At a fixed end of group 1: greedy `\s*` (largest whitespace count first),
then the operator alternation in order, then the rest of the pattern. -/
def tryAt (cs : List Char) : Option (String × String) :=
  let m := wsRunLen cs
  (List.range (m + 1)).findSome? fun d =>
    let after := cs.drop (m - d)
    opsList.findSome? fun op =>
      match dropPre op.toList after with
      | some tail => (afterOp tail).map fun r => (op, r)
      | none => none

/-- Models `condition.match(/(.+?)\s*(>=|<=|>|<|==|!=)\s*(.+)/)`: the lazy
group 1 grows one character at a time.  (The match is anchored at the start
of the string, and `.` is treated as matching any character; both coincide
with the JavaScript behaviour on the newline-free condition strings this
compiler handles.)  Returns the three capture groups. -/
def ifComparisonMatch (s : String) : Option (String × String × String) :=
  go [] s.toList
where
  go (acc : List Char) : List Char → Option (String × String × String)
    | [] => none
    | c :: rest =>
      match tryAt rest with
      | some (op, right) => some (String.mk (acc ++ [c]), op, right)
      | none => go (acc ++ [c]) rest

/-- The fixed `options` sub-object emitted by `IfTemplate.mapParameters`. -/
def ifOptionsObj : Obj :=
  [("caseSensitive", .vBool true), ("leftValue", .vStr ""),
   ("typeValidation", .vStr "strict")]

/-- Parameters produced by `IfTemplate.mapParameters` when the comparison
regex matched, given the fresh id and the three capture groups. -/
def ifMatchObj (id l op r : String) : Obj :=
  [("conditions", .vObj
    [("options", .vObj ifOptionsObj),
     ("conditions", .vArr
       [.vObj
         [("id", .vStr id),
          ("leftValue", .vStr (jsTrim l)),
          ("rightValue", .vStr (jsTrim r)),
          ("operator", .vObj
            [("type", .vStr (IfTemplate.getOperatorType (jsTrim r))),
             ("operation", .vStr (IfTemplate.mapOperator (jsTrim op)))])]]),
     ("combinator", .vStr "and")])]

/-- Parameters produced by the fallback branch of `IfTemplate.mapParameters`
for simple (non-comparison) conditions. -/
def ifFallbackObj (id condition : String) : Obj :=
  [("conditions", .vObj
    [("options", .vObj ifOptionsObj),
     ("conditions", .vArr
       [.vObj
         [("id", .vStr id),
          ("leftValue", .vStr condition),
          ("rightValue", .vStr "true"),
          ("operator", .vObj
            [("type", .vStr "boolean"), ("operation", .vStr "equal")])]]),
     ("combinator", .vStr "and")])]

/-- `IfTemplate.mapParameters`.  A truthy non-string `condition` makes the
JavaScript `condition.match(...)` call throw a TypeError. -/
def IfTemplate.mapParameters (ids : Nat → String) (params : Obj) (ctr : Nat) :
    Except String (Obj × Nat) :=
  match jsOr (jsGet params "condition") (.vStr "") with
  | .vStr c =>
    match ifComparisonMatch c with
    | some (l, op, r) => .ok (ifMatchObj (ids ctr) l op r, ctr + 1)
    | none => .ok (ifFallbackObj (ids ctr) c, ctr + 1)
  | _ => .error "TypeError: condition.match is not a function"

/-! The remaining registered templates of src/generator/nodeTemplates.ts. -/

/-- One `{name, value}` entry of a header/body parameter list. -/
def namedValueObj (kv : String × Value) : Value :=
  .vObj [("name", .vStr kv.1), ("value", .vStr (jsString kv.2))]

/-- `HttpRequestTemplate.mapParameters`.  Each conditional block assigns
fresh keys to `mapped`, so the appends below match the JS assignments. -/
def HttpRequestTemplate.mapParameters (params : Obj) : Obj :=
  let base : Obj :=
    [("method", jsOr (jsGet params "method") (.vStr "GET")),
     ("url", jsOr (jsGet params "url") (.vStr ""))]
  let h := jsGet params "headers"
  let withHeaders :=
    if h.truthy && h.isObjectType then
      base ++
        [("sendHeaders", .vBool true),
         ("headerParameters", .vObj
           [("parameters", .vArr ((jsEntries h).map namedValueObj))])]
    else base
  let b := jsGet params "body"
  if b.truthy then
    withHeaders ++
      [("sendBody", .vBool true),
       ("bodyParameters", .vObj
         [("parameters", .vArr ((jsEntries b).map namedValueObj))])]
  else withHeaders

/-- JS object spread `{...fixed, ...params}` / repeated assignment:
later entries overwrite by key, preserving first-insertion order. -/
def objSpread (o p : Obj) : Obj := p.foldl (fun acc kv => listSet acc kv.1 kv.2) o

/-- `GmailTemplate.mapParameters`. -/
def GmailTemplate.mapParameters (params : Obj) : Obj :=
  objSpread
    [("operation", .vStr "send"),
     ("sendTo", jsOr (jsGet params "to") (.vStr "")),
     ("subject", jsOr (jsGet params "subject") (.vStr "")),
     ("message", jsOr (jsGet params "body") (.vStr "")),
     ("emailType", jsOr (jsGet params "bodyType") (.vStr "text"))]
    params

/-- Default rule emitted by `ScheduleTriggerTemplate.mapParameters`. -/
def scheduleDefaultObj : Obj :=
  [("rule", .vObj
    [("interval", .vArr
      [.vObj [("field", .vStr "hours"), ("hoursInterval", .vNum 1)]])])]

/-- `ScheduleTriggerTemplate.mapParameters`.  A truthy non-string `cron`
makes the JavaScript `params.cron.split(...)` call throw a TypeError. -/
def ScheduleTriggerTemplate.mapParameters (params : Obj) : Except String Obj :=
  let cron := jsGet params "cron"
  if cron.truthy then
    match cron with
    | .vStr c =>
      if (jsSplitChar ' ' c).length ≥ 5 then
        .ok [("rule", .vObj
          [("interval", .vArr
            [.vObj [("field", .vStr "cronExpression"),
                    ("cronExpression", .vStr c)]])])]
      else .ok scheduleDefaultObj
    | _ => .error "TypeError: params.cron.split is not a function"
  else .ok scheduleDefaultObj

/-- `CodeTemplate.mapParameters`. -/
def CodeTemplate.mapParameters (params : Obj) : Obj :=
  [("mode", .vStr "runOnceForAllItems"),
   ("jsCode", jsOr (jsGet params "code") (.vStr "return items;"))]

/-- `SetTemplate.getValueType` (JS `typeof null` is object). -/
def SetTemplate.getValueType : Value → String
  | .vNum _ => "number"
  | .vBool _ => "boolean"
  | .vArr _ => "array"
  | .vObj _ => "object"
  | .vNull => "object"
  | .vStr _ => "string"

/-- One assignment entry built by `SetTemplate.mapParameters`. -/
def setAssignmentObj (id : String) (kv : String × Value) : Value :=
  .vObj [("id", .vStr id), ("name", .vStr kv.1),
         ("value", .vStr (jsString kv.2)),
         ("type", .vStr (SetTemplate.getValueType kv.2))]

/-- `SetTemplate.mapParameters`; draws one fresh id per assignment. -/
def SetTemplate.mapParameters (ids : Nat → String) (params : Obj) (ctr : Nat) :
    Obj × Nat :=
  let a := jsGet params "assignments"
  let entries := if a.truthy && a.isObjectType then jsEntries a else []
  let assignments :=
    ((List.range entries.length).zip entries).map
      fun p => setAssignmentObj (ids (ctr + p.1)) p.2
  ([("assignments", .vObj [("assignments", .vArr assignments)]),
    ("options", .vObj [])],
   ctr + entries.length)

/-- The registered strategies (`NODE_TEMPLATES` keys). -/
inductive TemplateKind where
  | httpRequest
  | gmail
  | ifNode
  | scheduleTrigger
  | code
  | set
  | manualTrigger
  deriving DecidableEq

/-- `getNodeTemplate`: lookup in the `NODE_TEMPLATES` registry. -/
def getNodeTemplate (nodeType : String) : Option TemplateKind :=
  if nodeType = "n8n-nodes-base.httpRequest" then some .httpRequest
  else if nodeType = "n8n-nodes-base.gmail" then some .gmail
  else if nodeType = "n8n-nodes-base.if" then some .ifNode
  else if nodeType = "n8n-nodes-base.scheduleTrigger" then some .scheduleTrigger
  else if nodeType = "n8n-nodes-base.code" then some .code
  else if nodeType = "n8n-nodes-base.set" then some .set
  else if nodeType = "n8n-nodes-base.manualTrigger" then some .manualTrigger
  else none

/-- Dispatch of `mapParameters` through the registry.  The id stream and
counter model the `Math.random`-backed `generateId` calls; strategies that
can hit a JS dynamic type error return `Except.error`. -/
def TemplateKind.mapParameters :
    TemplateKind → (Nat → String) → Obj → Nat → Except String (Obj × Nat)
  | .httpRequest, _, params, ctr => .ok (HttpRequestTemplate.mapParameters params, ctr)
  | .gmail, _, params, ctr => .ok (GmailTemplate.mapParameters params, ctr)
  | .ifNode, ids, params, ctr => IfTemplate.mapParameters ids params ctr
  | .scheduleTrigger, _, params, ctr =>
      (ScheduleTriggerTemplate.mapParameters params).map fun o => (o, ctr)
  | .code, _, params, ctr => .ok (CodeTemplate.mapParameters params, ctr)
  | .set, ids, params, ctr => .ok (SetTemplate.mapParameters ids params ctr)
  | .manualTrigger, _, _, ctr => .ok (([] : Obj), ctr)

/-! AST of the DSL (src/types/dsl.ts).  Line/column bookkeeping fields are
omitted: they are optional in the TypeScript types and never influence the
behaviour verified here. -/

/-- Expressions (the tagged union `Expression`). -/
inductive Expression where
  | literal (value : Value)
  | identifier (name : String)
  | functionCall (functionName : String) (args : List Expression)
  | template (template : String)
  | objectExpr (properties : List (String × Expression))
  | arrayExpr (elements : List Expression)

/-- `ParameterDeclaration` (validation constraints omitted: unused). -/
structure ParameterDeclaration where
  name : String
  paramType : String
  defaultValue : Option Expression
  required : Bool

/-- `VariableDeclaration`. -/
structure VariableDeclaration where
  name : String
  value : Expression

/-- `NodeDeclaration`. -/
structure NodeDeclaration where
  name : String
  nodeType : String
  parameters : List (String × Expression)
  position : Option (JNum × JNum) := none

/-- `ModuleDeclaration`. -/
structure ModuleDeclaration where
  name : String
  modulePath : String
  parameters : List (String × Expression)

/-- A workflow node entry: `NodeDeclaration | ModuleDeclaration`. -/
inductive NodeEntry where
  | node (d : NodeDeclaration)
  | moduleDecl (d : ModuleDeclaration)

/-- Name of a node entry (both union members carry `name`). -/
def NodeEntry.name : NodeEntry → String
  | .node d => d.name
  | .moduleDecl d => d.name

/-- One endpoint of a `ConnectionDeclaration`. -/
structure ConnectionEndpoint where
  node : String
  port : Option String := none

/-- `ConnectionDeclaration`. -/
structure ConnectionDeclaration where
  source : ConnectionEndpoint
  target : ConnectionEndpoint

/-- `WorkflowDeclaration` (its `variables` field is `vars` here because
`variables` is reserved in Lean 4). -/
structure WorkflowDeclaration where
  name : String
  parameters : List ParameterDeclaration
  vars : List VariableDeclaration
  nodes : List NodeEntry
  connections : List ConnectionDeclaration

/-- `Program`. -/
structure Program where
  workflow : WorkflowDeclaration

/-- The static `DSL_TO_N8N_NODE_TYPES` table. -/
def DSL_TO_N8N_NODE_TYPES (d : String) : Option String :=
  if d = "trigger.manual" then some "n8n-nodes-base.manualTrigger"
  else if d = "trigger.schedule" then some "n8n-nodes-base.scheduleTrigger"
  else if d = "trigger.webhook" then some "n8n-nodes-base.webhook"
  else if d = "trigger.form" then some "n8n-nodes-base.formTrigger"
  else if d = "data.set" then some "n8n-nodes-base.set"
  else if d = "data.transform" then some "n8n-nodes-base.code"
  else if d = "flow.if" then some "n8n-nodes-base.if"
  else if d = "flow.switch" then some "n8n-nodes-base.switch"
  else if d = "flow.splitOut" then some "n8n-nodes-base.splitOut"
  else if d = "flow.aggregate" then some "n8n-nodes-base.aggregate"
  else if d = "http.request" then some "n8n-nodes-base.httpRequest"
  else if d = "integration.email" then some "n8n-nodes-base.gmail"
  else if d = "integration.slack" then some "n8n-nodes-base.slack"
  else if d = "integration.sheets" then some "n8n-nodes-base.googleSheets"
  else if d = "util.note" then some "n8n-nodes-base.stickyNote"
  else if d = "util.noop" then some "n8n-nodes-base.noOp"
  else none

/-- The static `DEFAULT_TYPE_VERSIONS` table. -/
def DEFAULT_TYPE_VERSIONS (t : String) : Option JNum :=
  if t = "n8n-nodes-base.manualTrigger" then some 1
  else if t = "n8n-nodes-base.scheduleTrigger" then some 1.2
  else if t = "n8n-nodes-base.webhook" then some 2
  else if t = "n8n-nodes-base.formTrigger" then some 2.2
  else if t = "n8n-nodes-base.set" then some 3.4
  else if t = "n8n-nodes-base.code" then some 2
  else if t = "n8n-nodes-base.if" then some 2.2
  else if t = "n8n-nodes-base.switch" then some 1
  else if t = "n8n-nodes-base.httpRequest" then some 4.2
  else if t = "n8n-nodes-base.gmail" then some 2.1
  else if t = "n8n-nodes-base.googleSheets" then some 4.6
  else if t = "n8n-nodes-base.stickyNote" then some 1
  else if t = "n8n-nodes-base.noOp" then some 1
  else none

/-! Symbol environment of the Generator (parameter/variable maps). -/

/-- The record stored per parameter by `Generator.processParameters`. -/
structure ParamInfo where
  type : String
  defaultValue : Value
  required : Bool

/-- The Generator's symbol environment: `this.parameters`/`this.variables`
(the second field is `vars` because `variables` is reserved in Lean 4). -/
structure Env where
  parameters : List (String × ParamInfo)
  vars : List (String × Value)

/-! Template-string evaluation (`Generator.evaluateTemplate`): scan for
spans matching `/\$\{([^}]+)\}/g` and substitute each via the resolution
chain; everything else passes through unchanged. -/

/-- Extraction of the quoted argument by `/env\(['"]([^'"]+)['"]\)/`:
at one position, `env(`, a quote, one-or-more non-quote characters, a
quote, then a closing parenthesis. -/
def tryEnvAt (cs : List Char) : Option String :=
  match dropPre ("env(").toList cs with
  | none => none
  | some rest =>
    match rest with
    | [] => none
    | q :: rest2 =>
      if q = '\x27' ∨ q = '"' then
        let run := rest2.takeWhile fun c => ¬(c = '\x27' ∨ c = '"')
        if run.isEmpty then none
        else
          match rest2.drop run.length with
          | q2 :: ')' :: _ =>
              if q2 = '\x27' ∨ q2 = '"' then some (String.mk run) else none
          | _ => none
      else none

/-- First match of the `env(...)` argument pattern anywhere in the text. -/
def envArgScan : List Char → Option String
  | [] => none
  | c :: rest =>
    match tryEnvAt (c :: rest) with
    | some g => some g
    | none => envArgScan rest

/-- `trimmed.match(/env\(['"]([^'"]+)['"]\)/)?.[1]` on a string. -/
def envArgExtract (s : String) : Option String := envArgScan s.toList

/-- Resolution of one `${...}` span by `Generator.evaluateTemplate`:
variables first, then parameter defaults, then the built-ins `now(` and
`env(`, otherwise the original span is kept verbatim. -/
def resolveSpan (env : Env) (nowStr : String) (envf : String → Option String)
    (inner : String) : String :=
  let trimmed := jsTrim inner
  match listGet? env.vars trimmed with
  | some v => jsString v
  | none =>
    match listGet? env.parameters trimmed with
    | some p => jsString (jsOr p.defaultValue (.vStr ""))
    | none =>
      if strStartsWith trimmed "now(" then nowStr
      else if strStartsWith trimmed "env(" then
        (envf ((envArgExtract trimmed).getD "")).getD ""
      else "$\x7b" ++ inner ++ "\x7d"

/-! The global-replace scan of `/\$\{([^}]+)\}/g`: find a dollar-brace
marker, capture the nonempty text up to the first closing brace and
substitute it via `resolve`; a marker with no nonempty brace-terminated
body fails to match and scanning resumes after it (equivalently: it is
copied verbatim, since no new match can begin inside it without a fresh
dollar sign).  `scanSpan` is the state inside a candidate span. -/

mutual
/-- Copying state of the template scan. -/
def scanGo (resolve : String → String) : List Char → List Char
  | [] => []
  | '$' :: '\x7b' :: rest => scanSpan resolve [] rest
  | c :: rest => c :: scanGo resolve rest

/-- In-span state: `acc` holds the span text read so far. -/
def scanSpan (resolve : String → String) (acc : List Char) :
    List Char → List Char
  | [] => '$' :: '\x7b' :: acc
  | '\x7d' :: rest =>
    if acc.isEmpty then '$' :: '\x7b' :: '\x7d' :: scanGo resolve rest
    else (resolve (String.mk acc)).toList ++ scanGo resolve rest
  | c :: rest => scanSpan resolve (acc ++ [c]) rest
end

/-- `Generator.evaluateTemplate`. -/
def evaluateTemplate (env : Env) (nowStr : String)
    (envf : String → Option String) (t : String) : String :=
  String.mk (scanGo (resolveSpan env nowStr envf) t.toList)

/-! Expression evaluation (`Generator.evaluateExpression`). -/

/-- Exception bubbling of the embedded JavaScript: run the first
computation and, on success, continue. -/
def ebind {α β : Type} (x : Except String α) (f : α → Except String β) :
    Except String β :=
  match x with
  | .error msg => .error msg
  | .ok a => f a

theorem ebind_ok_inv {α β : Type} {x : Except String α}
    {f : α → Except String β} {b : β} (h : ebind x f = .ok b) :
    ∃ a, x = .ok a ∧ f a = .ok b := by
  cases x with
  | error msg => exact absurd h (by simp [ebind])
  | ok a => exact ⟨a, rfl, h⟩

theorem ebind_error {α β : Type} (msg : String)
    (f : α → Except String β) : ebind (.error msg) f = .error msg := rfl

theorem ebind_ok {α β : Type} (a : α) (f : α → Except String β) :
    ebind (.ok a) f = f a := rfl

mutual
/-- `Generator.evaluateExpression`: literals pass through; identifiers
resolve against variables first, then parameter defaults, falling back to
the bare name as a string; objects and arrays evaluate their children in
order; template strings are expanded; a `FunctionCallExpression` hits the
`default` branch and throws. -/
def evaluateExpression (env : Env) (nowStr : String)
    (envf : String → Option String) : Expression → Except String Value
  | .literal v => .ok v
  | .identifier n =>
    match listGet? env.vars n with
    | some v => .ok v
    | none =>
      match listGet? env.parameters n with
      | some p => .ok p.defaultValue
      | none => .ok (.vStr n)
  | .objectExpr props =>
    ebind (evalProperties env nowStr envf props) fun fields => .ok (.vObj fields)
  | .arrayExpr els =>
    ebind (evalElements env nowStr envf els) fun vs => .ok (.vArr vs)
  | .template t => .ok (.vStr (evaluateTemplate env nowStr envf t))
  | .functionCall _ _ => .error "Unsupported expression type: FunctionCallExpression"

/-- Evaluation of the fields of an `ObjectExpression`, in order. -/
def evalProperties (env : Env) (nowStr : String)
    (envf : String → Option String) :
    List (String × Expression) → Except String (List (String × Value))
  | [] => .ok []
  | (k, e) :: rest =>
    ebind (evaluateExpression env nowStr envf e) fun v =>
      ebind (evalProperties env nowStr envf rest) fun vs => .ok ((k, v) :: vs)

/-- Evaluation of the elements of an `ArrayExpression`, in order. -/
def evalElements (env : Env) (nowStr : String)
    (envf : String → Option String) :
    List Expression → Except String (List Value)
  | [] => .ok []
  | e :: rest =>
    ebind (evaluateExpression env nowStr envf e) fun v =>
      ebind (evalElements env nowStr envf rest) fun vs => .ok (v :: vs)
end

/-! The Generator (src/generator/generator.ts). -/

/-- `GeneratorOptions` as passed by the caller. -/
structure GeneratorOptions where
  instanceId : Option String := none
  autoLayout : Option Bool := none
  startPosition : Option (JNum × JNum) := none
  spacing : Option JNum := none

/-- Options after the constructor merges in the defaults
`{autoLayout: true, startPosition: [0, 0], spacing: 200}`. -/
structure EffectiveOptions where
  instanceId : Option String
  autoLayout : Bool
  startPosition : JNum × JNum
  spacing : JNum

/-- The option merge performed by the `Generator` constructor. -/
def resolveOptions (o : GeneratorOptions) : EffectiveOptions :=
  ⟨o.instanceId, o.autoLayout.getD true, o.startPosition.getD (0, 0),
   o.spacing.getD 200⟩

/-- A generated n8n node. -/
structure N8nNode where
  id : String
  name : String
  type : String
  position : JNum × JNum
  parameters : Obj
  typeVersion : JNum

/-- One entry of a connection list (`NodeConnection`). -/
structure NodeConnection where
  node : String
  type : String
  index : Nat
  deriving DecidableEq

/-- The per-type slot array `NodeConnection[][]`; JS sparse-array holes
(created by writing index 1 before index 0) are `none`. -/
abbrev Slots := List (Option (List NodeConnection))

/-- `NodeConnections`: output-port-type keyed map of slot arrays. -/
abbrev NodeConnectionsMap := List (String × Slots)

/-- `WorkflowConnections`: source-node-name keyed map. -/
abbrev WorkflowConnections := List (String × NodeConnectionsMap)

/-- The generated workflow document.  The constant `pinData: {}` and the
nesting of `meta.instanceId` / `settings.executionOrder` are flattened. -/
structure N8nWorkflow where
  nodes : List N8nNode
  connections : WorkflowConnections
  instanceId : String
  name : String
  active : Bool
  executionOrder : String

/-- Mutable state of one `generate` call: the id-stream counter (modelling
the sequence of `Math.random`-backed draws), `this.currentPosition` and
`this.nodePositions`. -/
structure GenSt where
  ctr : Nat
  cur : JNum × JNum
  nodePositions : List (String × (JNum × JNum))

/-- `Generator.getNodePosition`. -/
def getNodePosition (opts : EffectiveOptions) (name : String) (st : GenSt) :
    (JNum × JNum) × GenSt :=
  match listGet? st.nodePositions name with
  | some p => (p, st)
  | none =>
    if opts.autoLayout then
      (st.cur,
       { st with
         nodePositions := listSet st.nodePositions name st.cur,
         cur := (st.cur.1 + opts.spacing, st.cur.2) })
    else ((0, 0), st)

/-- `Generator.mapNodeType`. -/
def mapNodeType (dslType : String) : Except String String :=
  match DSL_TO_N8N_NODE_TYPES dslType with
  | some t => .ok t
  | none => .error ("Unknown node type: " ++ dslType)

/-- The raw-parameter evaluation loop of `Generator.generateNodeParameters`. -/
def evalRawParams (env : Env) (nowStr : String) (envf : String → Option String) :
    List (String × Expression) → Obj → Except String Obj
  | [], acc => .ok acc
  | (k, e) :: rest, acc =>
    ebind (evaluateExpression env nowStr envf e) fun v =>
      evalRawParams env nowStr envf rest (listSet acc k v)

/-- `Generator.generateNodeParameters`: evaluate all parameter expressions,
then apply the registered template, else fall back to the raw map. -/
def generateNodeParameters (env : Env) (nowStr : String)
    (envf : String → Option String) (ids : Nat → String)
    (params : List (String × Expression)) (n8nType : String) (ctr : Nat) :
    Except String (Obj × Nat) :=
  ebind (evalRawParams env nowStr envf params []) fun rawParams =>
    match getNodeTemplate n8nType with
    | some tk => tk.mapParameters ids rawParams ctr
    | none => .ok (rawParams, ctr)

/-- The `NodeDeclaration` branch of `Generator.generateNode`: map the
type, take a position, reshape parameters, and draw the fresh node id
(after the template's draws, matching evaluation order). -/
def generateNodeDecl (opts : EffectiveOptions) (env : Env) (nowStr : String)
    (envf : String → Option String) (ids : Nat → String)
    (nd : NodeDeclaration) (st : GenSt) : Except String (N8nNode × GenSt) :=
  ebind (mapNodeType nd.nodeType) fun n8nType =>
    ebind (generateNodeParameters env nowStr envf ids nd.parameters n8nType
      (getNodePosition opts nd.name st).2.ctr) fun pc =>
      .ok ({ id := ids pc.2, name := nd.name, type := n8nType,
             position := (getNodePosition opts nd.name st).1, parameters := pc.1,
             typeVersion := (DEFAULT_TYPE_VERSIONS n8nType).getD 1 },
           { (getNodePosition opts nd.name st).2 with ctr := pc.2 + 1 })

/-- `Generator.generateNode`: a `ModuleDeclaration` throws; a
`NodeDeclaration` is handled by `generateNodeDecl`. -/
def generateNode (opts : EffectiveOptions) (env : Env) (nowStr : String)
    (envf : String → Option String) (ids : Nat → String)
    (entry : NodeEntry) (st : GenSt) : Except String (N8nNode × GenSt) :=
  match entry with
  | .moduleDecl _ => .error "Module resolution not implemented yet"
  | .node nd => generateNodeDecl opts env nowStr envf ids nd st

/-- The node loop of `Generator.generate`, in declaration order. -/
def generateNodes (opts : EffectiveOptions) (env : Env) (nowStr : String)
    (envf : String → Option String) (ids : Nat → String) :
    List NodeEntry → GenSt → Except String (List N8nNode × GenSt)
  | [], st => .ok ([], st)
  | entry :: rest, st =>
    ebind (generateNode opts env nowStr envf ids entry st) fun p =>
      ebind (generateNodes opts env nowStr envf ids rest p.2) fun q =>
        .ok (p.1 :: q.1, q.2)

/-- JS `x || d` on an optional string (the empty string is falsy). -/
def jsOrStr (x : Option String) (d : String) : String :=
  match x with
  | some s => if s = "" then d else s
  | none => d

/-- `Generator.mapConnectionType` (every branch yields main). -/
def mapConnectionType (dslType : String) : String :=
  if dslType = "main" ∨ dslType = "output" ∨ dslType = "true" ∨ dslType = "false"
  then "main"
  else if dslType = "error" then "main"
  else "main"

/-- `Generator.mapOutputIndex`. -/
def mapOutputIndex (dslOutput : String) : Nat :=
  if dslOutput = "main" ∨ dslOutput = "output" ∨ dslOutput = "true" then 0
  else if dslOutput = "false" then 1
  else 0

/-- An apostrophe (kept out of string literals). -/
def sq : String := "\x27"

/-- Grow a JS array so that the index is addressable (holes are none). -/
def slotsEnsure (slots : Slots) (idx : Nat) : Slots :=
  if slots.length ≤ idx then
    slots ++ List.replicate (idx + 1 - slots.length) none
  else slots

/-- `result[src][type][idx] = result[src][type][idx] || []` then push. -/
def slotsPush (slots : Slots) (idx : Nat) (nc : NodeConnection) : Slots :=
  let padded := slotsEnsure slots idx
  padded.set idx (some ((padded.getD idx none).getD [] ++ [nc]))

/-- The connection loop of `Generator.generateConnections`, accumulating
the result map; endpoints must name generated nodes. -/
def connectionsGo (nodeNames : List String) :
    List ConnectionDeclaration → WorkflowConnections →
    Except String WorkflowConnections
  | [], acc => .ok acc
  | conn :: rest, acc =>
    let sourceName := conn.source.node
    let targetName := conn.target.node
    if sourceName ∉ nodeNames then
      .error ("Source node " ++ sq ++ sourceName ++ sq ++ " not found")
    else if targetName ∉ nodeNames then
      .error ("Target node " ++ sq ++ targetName ++ sq ++ " not found")
    else
      let port := jsOrStr conn.source.port "main"
      let connectionType := mapConnectionType port
      let outputIndex := mapOutputIndex port
      let nc : NodeConnection := ⟨targetName, connectionType, 0⟩
      let curNC := (listGet? acc sourceName).getD []
      let curSlots := (listGet? curNC connectionType).getD []
      connectionsGo nodeNames rest
        (listSet acc sourceName
          (listSet curNC connectionType (slotsPush curSlots outputIndex nc)))

/-- `Generator.generateConnections`: only node names are consulted. -/
def generateConnections (connections : List ConnectionDeclaration)
    (nodes : List N8nNode) : Except String WorkflowConnections :=
  connectionsGo (nodes.map N8nNode.name) connections []

/-- The parameter loop of `Generator.processParameters` (defaults are
expression objects and get evaluated against the environment so far). -/
def processParameters (nowStr : String) (envf : String → Option String) :
    List ParameterDeclaration → Env → Except String Env
  | [], env => .ok env
  | p :: rest, env =>
    ebind (match p.defaultValue with
      | some e => evaluateExpression env nowStr envf e
      | none => .ok Value.vNull) fun v =>
      processParameters nowStr envf rest
        { env with
          parameters := listSet env.parameters p.name ⟨p.paramType, v, p.required⟩ }

/-- The variable loop of `Generator.processVariables`. -/
def processVariables (nowStr : String) (envf : String → Option String) :
    List VariableDeclaration → Env → Except String Env
  | [], env => .ok env
  | v :: rest, env =>
    ebind (evaluateExpression env nowStr envf v.value) fun val =>
      processVariables nowStr envf rest
        { env with vars := listSet env.vars v.name val }

/-- `Generator.generate`: bind the environment, generate nodes in order,
build the connection map, and assemble the document.  The instance id is
`options.instanceId || generateInstanceId()`, the latter modelled as the
next fresh draw of the id stream. -/
def generate (gopts : GeneratorOptions) (nowStr : String)
    (envf : String → Option String) (ids : Nat → String) (program : Program) :
    Except String N8nWorkflow :=
  ebind (processParameters nowStr envf program.workflow.parameters ⟨[], []⟩)
    fun env1 =>
  ebind (processVariables nowStr envf program.workflow.vars env1) fun env =>
  ebind (generateNodes (resolveOptions gopts) env nowStr envf ids
      program.workflow.nodes
      ⟨0, (resolveOptions gopts).startPosition, []⟩) fun p =>
  ebind (generateConnections program.workflow.connections p.1)
    fun connections =>
    .ok { nodes := p.1, connections := connections,
          instanceId := jsOrStr (resolveOptions gopts).instanceId (ids p.2.ctr),
          name := program.workflow.name, active := false,
          executionOrder := "v1" }

/-! The validator (src/utils/validation.ts).  Line/column payloads are
omitted along with the AST position bookkeeping they mirror. -/

/-- `ValidationError`; `type` holds the severity tag. -/
structure ValidationError where
  message : String
  type : String
  deriving DecidableEq

/-- An error-severity entry. -/
def vErr (msg : String) : ValidationError := ⟨msg, "error"⟩

/-- A warning-severity entry. -/
def vWarn (msg : String) : ValidationError := ⟨msg, "warning"⟩

/-- The duplicate-name loop pattern of `Validator.validateWorkflow`
(check against the names seen so far, then record the name). -/
def dupLoop (mk : String → ValidationError) :
    List String → List String → List ValidationError
  | [], _ => []
  | n :: rest, seen =>
    (if n ∈ seen then [mk n] else []) ++ dupLoop mk rest (n :: seen)

/-- The variable loop: duplicate variable names and collisions with the
(already complete) parameter-name set. -/
def varLoop (paramNames : List String) :
    List VariableDeclaration → List String → List ValidationError
  | [], _ => []
  | v :: rest, seen =>
    (if v.name ∈ seen then
      [vErr ("Duplicate variable name: " ++ v.name)] else []) ++
    (if v.name ∈ paramNames then
      [vErr ("Variable " ++ sq ++ v.name ++ sq ++ " conflicts with parameter name")]
     else []) ++
    varLoop paramNames rest (v.name :: seen)

/-- The connection-endpoint loop of the AST pass. -/
def connLoop (nodeNames : List String) :
    List ConnectionDeclaration → List ValidationError
  | [] => []
  | c :: rest =>
    (if c.source.node ∉ nodeNames then
      [vErr ("Connection source node " ++ sq ++ c.source.node ++ sq ++
             " does not exist")] else []) ++
    (if c.target.node ∉ nodeNames then
      [vErr ("Connection target node " ++ sq ++ c.target.node ++ sq ++
             " does not exist")] else []) ++
    connLoop nodeNames rest

/-- The unconnected-node warning loop. -/
def unconnectedLoop (connected : List String) :
    List NodeEntry → List ValidationError
  | [] => []
  | n :: rest =>
    (if n.name ∉ connected then
      [vWarn ("Node " ++ sq ++ n.name ++ sq ++
              " is not connected to any other nodes")] else []) ++
    unconnectedLoop connected rest

/-- `Validator.validateWorkflow` (the AST pass), in source order. -/
def validateWorkflow (w : WorkflowDeclaration) : List ValidationError :=
  dupLoop (fun n => vErr ("Duplicate parameter name: " ++ n))
      (w.parameters.map (fun p => p.name)) [] ++
  varLoop (w.parameters.map (fun p => p.name)) w.vars [] ++
  dupLoop (fun n => vErr ("Duplicate node name: " ++ n))
      (w.nodes.map NodeEntry.name) [] ++
  connLoop (w.nodes.map NodeEntry.name) w.connections ++
  unconnectedLoop
      ((w.connections.map fun c => [c.source.node, c.target.node]).flatten)
      w.nodes

/-- `Validator.validateProgram`. -/
def validateProgram (p : Program) : List ValidationError :=
  validateWorkflow p.workflow

/-- `Validator.validateNode` of the graph pass.  The position and
parameters checks are vacuously satisfied by the typed embedding (a
position is always a 2-element pair and parameters are always present). -/
def validateNode (n : N8nNode) : List ValidationError :=
  (if n.id = "" then [vErr "Node must have an id"] else []) ++
  (if n.name = "" then [vErr "Node must have a name"] else []) ++
  (if n.type = "" then [vErr "Node must have a type"] else []) ++
  (if n.typeVersion = 0 then [vErr "Node must have a typeVersion"] else [])

/-- The node loop of the graph pass. -/
def graphNodeLoop : List N8nNode → List String → List ValidationError
  | [], _ => []
  | n :: rest, seen =>
    (if n.name ∈ seen then [vErr ("Duplicate node name: " ++ n.name)] else []) ++
    validateNode n ++ graphNodeLoop rest (n.name :: seen)

/-- Target-existence errors within one connection list. -/
def slotTargets (nodeNames : List String) :
    List NodeConnection → List ValidationError
  | [] => []
  | c :: rest =>
    (if c.node ∉ nodeNames then
      [vErr ("Connection target node " ++ sq ++ c.node ++ sq ++
             " does not exist")] else []) ++
    slotTargets nodeNames rest

/-- Iterating the slot array of one connection type; a sparse-array hole
makes the JS for..of over `undefined` throw. -/
def slotsCheck (nodeNames : List String) :
    Slots → Except String (List ValidationError)
  | [] => .ok []
  | none :: _ => .error "TypeError: undefined is not iterable"
  | some cs :: rest =>
    ebind (slotsCheck nodeNames rest) fun es =>
      .ok (slotTargets nodeNames cs ++ es)

/-- Iterating the connection types of one source node. -/
def typesCheck (nodeNames : List String) :
    NodeConnectionsMap → Except String (List ValidationError)
  | [] => .ok []
  | (_, slots) :: rest =>
    ebind (slotsCheck nodeNames slots) fun es1 =>
      ebind (typesCheck nodeNames rest) fun es2 => .ok (es1 ++ es2)

/-- The connection sweep of `Validator.validateN8nWorkflow`. -/
def graphConnCheck (nodeNames : List String) :
    WorkflowConnections → Except String (List ValidationError)
  | [] => .ok []
  | (src, ncs) :: rest =>
    ebind (typesCheck nodeNames ncs) fun es1 =>
      ebind (graphConnCheck nodeNames rest) fun es2 =>
        .ok ((if src ∉ nodeNames then
               [vErr ("Connection source node " ++ sq ++ src ++ sq ++
                      " does not exist")] else []) ++ es1 ++ es2)

/-- `Validator.validateN8nWorkflow` (the graph pass). -/
def validateN8nWorkflow (wf : N8nWorkflow) : Except String (List ValidationError) :=
  let base :=
    if wf.nodes.length = 0 then [vErr "Workflow must have at least one node"]
    else []
  ebind (graphConnCheck (wf.nodes.map N8nNode.name) wf.connections)
    fun connErrs => .ok (base ++ graphNodeLoop wf.nodes [] ++ connErrs)

/-! The compiler orchestration (`Compiler.compile` of compiler.ts),
modelled from the parse step onward: it takes the parsed `Program`
(parsing is deterministic and out of scope of the claims settled here). -/

/-- `CompilerResult` (the echoed `ast` field is omitted: it is always the
input program). -/
structure CompilerResult where
  success : Bool
  workflow : Option N8nWorkflow
  errors : List ValidationError
  warnings : List ValidationError

/-- `Compiler.compile` from the parsed AST onward: optional AST
validation (errors stop compilation; strict mode promotes warnings),
generation inside try/catch, then optional graph validation. -/
def compileAst (validate strict : Bool) (gopts : GeneratorOptions)
    (nowStr : String) (envf : String → Option String) (ids : Nat → String)
    (ast : Program) : CompilerResult :=
  let astIssues := if validate then validateProgram ast else []
  let errors := astIssues.filter fun e => e.type == "error"
  let warnings := astIssues.filter fun e => ¬ (e.type == "error")
  if validate ∧ errors.length > 0 then
    ⟨false, none, errors, warnings⟩
  else if validate ∧ strict ∧ warnings.length > 0 then
    ⟨false, none, warnings, []⟩
  else
    match generate gopts nowStr envf ids ast with
    | .error e =>
      ⟨false, none, errors ++ [vErr ("Compilation error: Error: " ++ e)], warnings⟩
    | .ok wf =>
      match (if validate then validateN8nWorkflow wf else .ok []) with
      | .error e =>
        ⟨false, none, errors ++ [vErr ("Compilation error: Error: " ++ e)], warnings⟩
      | .ok post =>
        let errors2 := errors ++ post.filter fun e => e.type == "error"
        let warnings2 := warnings ++ post.filter fun e => ¬ (e.type == "error")
        if validate ∧ errors2.length > 0 then ⟨false, some wf, errors2, warnings2⟩
        else ⟨true, some wf, errors2, warnings2⟩

/-! Erasure of the freshly drawn opaque identifiers, used to compare two
generation runs that differ only in their id streams. -/

mutual
/-- Remove every object field keyed `id`, recursively. -/
def scrubValue : Value → Value
  | .vObj fields => .vObj (scrubFields fields)
  | .vArr xs => .vArr (scrubList xs)
  | v => v

/-- Drop `id`-keyed fields and scrub the remaining values. -/
def scrubFields : List (String × Value) → List (String × Value)
  | [] => []
  | (k, v) :: rest =>
    if k = "id" then scrubFields rest
    else (k, scrubValue v) :: scrubFields rest

/-- Scrub every element of a list. -/
def scrubList : List Value → List Value
  | [] => []
  | v :: rest => scrubValue v :: scrubList rest
end

/-- Erase generated ids inside a parameter map. -/
def scrubObj (o : Obj) : Obj := scrubFields o

/-- Erase the node id and the generated ids inside its parameters. -/
def scrubNode (n : N8nNode) : N8nNode :=
  { n with id := "", parameters := scrubObj n.parameters }

/-- Erase every freshly generated identifier of a generated workflow:
the instance id, the node ids, and the ids embedded in parameters. -/
def scrubWorkflow (w : N8nWorkflow) : N8nWorkflow :=
  { w with nodes := w.nodes.map scrubNode, instanceId := "" }

/-! Navigation helpers used to state properties of generated parameter
maps without spelling out whole objects. -/

/-- Key presence in a parameter map. -/
def objHasKey (o : Obj) (k : String) : Bool := (listGet? o k).isSome

/-- The condition list of a generated If-node parameter map. -/
def conditionsOf (o : Obj) : Option (List Value) :=
  match listGet? o "conditions" with
  | some (.vObj c) =>
    match listGet? c "conditions" with
    | some (.vArr l) => some l
    | _ => none
  | _ => none

/-- The combinator of a generated If-node parameter map. -/
def combinatorOf (o : Obj) : Option Value :=
  match listGet? o "conditions" with
  | some (.vObj c) => listGet? c "combinator"
  | _ => none

/-- The first condition entry. -/
def firstCondition (o : Obj) : Option Value :=
  (conditionsOf o).bind List.head?

/-- A field of the first condition entry. -/
def condField (o : Obj) (k : String) : Option Value :=
  match firstCondition o with
  | some (.vObj c) => listGet? c k
  | _ => none

/-- A field of the first condition entry's operator object. -/
def condOperatorField (o : Obj) (k : String) : Option Value :=
  match condField o "operator" with
  | some (.vObj op) => listGet? op k
  | _ => none

/-- The parameter maps of the generated nodes, when generation succeeded. -/
def nodeParamsOf (r : Except String N8nWorkflow) : Option (List Obj) :=
  match r with
  | .ok w => some (w.nodes.map fun n => n.parameters)
  | .error _ => none

/-- Every connection entry reachable in a generated connections map. -/
def allConnEntries (r : WorkflowConnections) : List NodeConnection :=
  (r.map fun snc =>
    (snc.2.map fun ts => (ts.2.map fun slot => slot.getD []).flatten).flatten).flatten

/-! Specification-side rendering of the template-resolution chain, written
from the specification text of the template evaluator (claim C6): trim the
span, then try in order the exact variable name, the exact parameter name
(resolved default), the built-in prefixes `now(` and `env(`, and otherwise
keep the span verbatim with its delimiters. -/

/-- Span resolution as worded by the specification. -/
def resolveSpanSpec (env : Env) (nowStr : String)
    (envf : String → Option String) (inner : String) : String :=
  let t := jsTrim inner
  if (listGet? env.vars t).isSome then
    jsString ((listGet? env.vars t).getD .vNull)
  else if (listGet? env.parameters t).isSome then
    jsString (jsOr ((listGet? env.parameters t).getD ⟨"", .vNull, false⟩).defaultValue (.vStr ""))
  else if strStartsWith t "now(" then nowStr
  else if strStartsWith t "env(" then (envf ((envArgExtract t).getD "")).getD ""
  else "$\x7b" ++ inner ++ "\x7d"

/-- Reassemble a template string from literal/span segments plus a final
literal. -/
def assembleSegments : List (String × String) → String → String
  | [], finalLit => finalLit
  | (lit, span) :: rest, finalLit =>
      lit ++ "$\x7b" ++ span ++ "\x7d" ++ assembleSegments rest finalLit

/-- Render segments with each span replaced by its resolution. -/
def renderSegments (resolve : String → String) :
    List (String × String) → String → String
  | [], finalLit => finalLit
  | (lit, span) :: rest, finalLit =>
      lit ++ resolve span ++ renderSegments resolve rest finalLit

/-- A literal part: contains no template start marker. -/
def hasTemplateStart : List Char → Bool
  | [] => false
  | [_] => false
  | c :: d :: rest => (c == '$' && d == '\x7b') || hasTemplateStart (d :: rest)

/-- A span body: nonempty and free of closing braces. -/
def spanOk (s : String) : Bool :=
  !s.toList.isEmpty && s.toList.all fun c => !(c == '\x7d')

/-- Success test for a fallible computation. -/
def exceptIsOk {ε α : Type} : Except ε α → Bool
  | .ok _ => true
  | .error _ => false

/-! Concrete artifacts reused by several statements below. -/

/-- A workflow with one flow.if node whose condition is the argument. -/
def singleIfProgram (cond : Expression) : Program :=
  { workflow :=
    { name := "w", parameters := [], vars := [],
      nodes := [.node { name := "c", nodeType := "flow.if",
                        parameters := [("condition", cond)] }],
      connections := [] } }

/-- A constant id stream. -/
def idsConst (s : String) : Nat → String := fun _ => s

/-- JS `s.split("||")`: the clause splitting used by the compound-condition
parser variants. -/
def jsSplitOr (s : String) : List String :=
  go [] s.toList
where
  go (acc : List Char) : List Char → List String
    | [] => [String.mk acc]
    | '|' :: '|' :: rest => String.mk acc :: go [] rest
    | c :: rest => go (acc ++ [c]) rest

/-- Unfolding of the If strategy once the condition resolved to a string. -/
theorem ifMapParameters_str (ids : Nat → String) (params : Obj) (ctr : Nat)
    (s : String) (h : jsOr (jsGet params "condition") (.vStr "") = .vStr s) :
    IfTemplate.mapParameters ids params ctr =
      match ifComparisonMatch s with
      | some (l, op, r) => .ok (ifMatchObj (ids ctr) l op r, ctr + 1)
      | none => .ok (ifFallbackObj (ids ctr) s, ctr + 1) := by
  unfold IfTemplate.mapParameters
  rw [h]

end Octocep

namespace Octocep

/-! Claim theorems.  Each claim of the specification audit is settled by
exactly one theorem below (with a witness or counterexample where
required). -/

/-- C4: for a flow.if node whose condition parameter evaluates to the
string made of a dollar-brace x span, a greater-or-equal sign and 10 (the
span stays verbatim because x is unbound), the generated parameters hold
exactly one condition, its operator operation is largerEqual (the mapping
of the two-character comparison), its operator type is the inferred
number, and its right value is the string 10. -/
theorem C4_if_gte_condition (ids : Nat → String) (nowStr : String)
    (envf : String → Option String) :
    ((nodeParamsOf (generate {} nowStr envf ids
        (singleIfProgram (.template "$\x7bx\x7d >= 10")))).bind List.head?).map
      (fun o =>
        ((conditionsOf o).map List.length,
         condOperatorField o "operation",
         condOperatorField o "type",
         condField o "rightValue",
         condField o "leftValue"))
      = some (some 1, some (.vStr "largerEqual"), some (.vStr "number"),
              some (.vStr "10"), some (.vStr "$\x7bx\x7d"))
    ∧ (nodeParamsOf (generate {} nowStr envf ids
        (singleIfProgram (.template "$\x7bx\x7d >= 10")))).map List.length
      = some 1 :=
  ⟨rfl, rfl⟩

/-- C1 counterexample: for the flow.if node with condition string
`a || b` (two clauses separated by the or-operator) the generated
conditions object has combinator and — not or — and a single condition
entry, though the condition string splits into two clauses. -/
theorem C1_counterexample :
    ((nodeParamsOf (generate {} "NOW" (fun _ => none) (idsConst "cid")
        (singleIfProgram (.literal (.vStr "a || b"))))).bind List.head?).map
      (fun o => (combinatorOf o, (conditionsOf o).map List.length))
      = some (some (.vStr "and"), some 1)
    ∧ ¬ ((nodeParamsOf (generate {} "NOW" (fun _ => none) (idsConst "cid")
        (singleIfProgram (.literal (.vStr "a || b"))))).bind List.head?).map
      (fun o => combinatorOf o) = some (some (.vStr "or"))
    ∧ (jsSplitOr "a || b").length = 2 :=
  ⟨rfl,
   fun h => absurd (Value.vStr.inj (Option.some.inj (Option.some.inj h)))
     (by decide),
   rfl⟩

/-- C1 (amended): the registered If strategy never splits a compound
condition: for every parameter map whose condition is a string containing
the or-operator, the produced conditions object has combinator and and
exactly one condition entry (never an or-combinator with one entry per
clause). -/
theorem C1_if_compound_not_split (ids : Nat → String) (params : Obj)
    (ctr : Nat) (s : String)
    (hc : listGet? params "condition" = some (.vStr s))
    (hinf : List.IsInfix ("||").toList s.toList) :
    ∃ o : Obj, IfTemplate.mapParameters ids params ctr = .ok (o, ctr + 1)
      ∧ combinatorOf o = some (.vStr "and")
      ∧ (conditionsOf o).map List.length = some 1 := by
  have hs : ¬ s = "" := by
    intro he
    subst he
    simp [List.IsInfix] at hinf
  have hor : jsOr (jsGet params "condition") (.vStr "") = .vStr s := by
    simp [jsGet, hc, jsOr, Value.truthy, hs]
  rw [ifMapParameters_str ids params ctr s hor]
  cases h : ifComparisonMatch s with
  | some t =>
    obtain ⟨l, op, r⟩ := t
    exact ⟨_, rfl, rfl, rfl⟩
  | none => exact ⟨_, rfl, rfl, rfl⟩

/-- C1 witness: the amended statement applied to the condition `a || b`. -/
theorem C1_witness :
    ∃ o : Obj,
      IfTemplate.mapParameters (idsConst "wid")
          [("condition", .vStr "a || b")] 0 = .ok (o, 1)
      ∧ combinatorOf o = some (.vStr "and")
      ∧ (conditionsOf o).map List.length = some 1 :=
  C1_if_compound_not_split (idsConst "wid") [("condition", .vStr "a || b")] 0
    "a || b" rfl (by decide)

/-- C2 counterexample: the registry maps the if and schedule node types to
strategies whose mapParameters throws a TypeError on a numeric condition
or cron value, so the strategies are not total on all parameter maps. -/
theorem C2_counterexample :
    getNodeTemplate "n8n-nodes-base.if" = some TemplateKind.ifNode
    ∧ TemplateKind.mapParameters .ifNode (idsConst "cid2")
        [("condition", .vNum 5)] 0
        = .error "TypeError: condition.match is not a function"
    ∧ getNodeTemplate "n8n-nodes-base.scheduleTrigger"
        = some TemplateKind.scheduleTrigger
    ∧ TemplateKind.mapParameters .scheduleTrigger (idsConst "cid2")
        [("cron", .vNum 5)] 0
        = .error "TypeError: params.cron.split is not a function" :=
  ⟨rfl, rfl, rfl, rfl⟩

/-- C2 (amended): every registered strategy returns a parameter map and
never throws, provided that the condition field (if strategy) and the cron
field (schedule strategy), when present and truthy, are strings; truthy
non-string values there raise a TypeError. -/
theorem C2_templates_total (tk : TemplateKind) (ids : Nat → String)
    (params : Obj) (ctr : Nat)
    (hcond : ∀ v, listGet? params "condition" = some v → v.truthy = true →
      ∃ s, v = .vStr s)
    (hcron : ∀ v, listGet? params "cron" = some v → v.truthy = true →
      ∃ s, v = .vStr s) :
    exceptIsOk (TemplateKind.mapParameters tk ids params ctr) = true := by
  cases tk with
  | ifNode =>
    show exceptIsOk (IfTemplate.mapParameters ids params ctr) = true
    have hstr : ∃ s, jsOr (jsGet params "condition") (.vStr "") = .vStr s := by
      cases hv : listGet? params "condition" with
      | none =>
        refine ⟨"", ?_⟩
        simp [jsGet, hv, jsOr, Value.truthy]
      | some v =>
        by_cases ht : v.truthy = true
        · obtain ⟨s, hsv⟩ := hcond v hv ht
          subst hsv
          exact ⟨s, by simp [jsGet, hv, jsOr, ht]⟩
        · refine ⟨"", ?_⟩
          simp [jsGet, hv, jsOr, ht]
    obtain ⟨s, hor⟩ := hstr
    rw [ifMapParameters_str ids params ctr s hor]
    cases ifComparisonMatch s with
    | some t => obtain ⟨l, op, r⟩ := t; rfl
    | none => rfl
  | scheduleTrigger =>
    show exceptIsOk (Except.map (fun o => (o, ctr))
      (ScheduleTriggerTemplate.mapParameters params)) = true
    unfold ScheduleTriggerTemplate.mapParameters
    cases hv : listGet? params "cron" with
    | none => simp [jsGet, hv, Value.truthy, Except.map, exceptIsOk]
    | some v =>
      by_cases ht : v.truthy = true
      · obtain ⟨c, hsv⟩ := hcron v hv ht
        subst hsv
        by_cases hlen : (jsSplitChar ' ' c).length ≥ 5
        · simp [jsGet, hv, ht, hlen, Except.map, exceptIsOk]
        · simp [jsGet, hv, ht, hlen, Except.map, exceptIsOk]
      · have ht2 : v.truthy = false := by
          cases hvt : v.truthy
          · rfl
          · exact absurd hvt ht
        simp [jsGet, hv, ht2, Except.map, exceptIsOk]
  | httpRequest => rfl
  | gmail => rfl
  | code => rfl
  | set => rfl
  | manualTrigger => rfl

/-- C2 witness: the amended statement applied to the if strategy with a
string condition. -/
theorem C2_witness :
    exceptIsOk (TemplateKind.mapParameters .ifNode (idsConst "wid2")
      [("condition", .vStr "x")] 0) = true :=
  C2_templates_total .ifNode (idsConst "wid2") [("condition", .vStr "x")] 0
    (fun v h _ => ⟨"x", (Option.some.inj h).symm⟩)
    (fun v h _ => absurd h (by simp [listGet?]))

/-- C5 counterexample: with method GET and a non-empty body map, the HTTP
strategy still emits sendBody and the body parameter list. -/
theorem C5_counterexample :
    listGet? (HttpRequestTemplate.mapParameters
        [("method", .vStr "GET"), ("body", .vObj [("x", .vNum 1)])])
      "sendBody" = some (.vBool true)
    ∧ objHasKey (HttpRequestTemplate.mapParameters
        [("method", .vStr "GET"), ("body", .vObj [("x", .vNum 1)])])
      "bodyParameters" = true :=
  ⟨rfl, rfl⟩

/-- C5 (amended): the HTTP strategy emits the body fields exactly when the
body parameter is truthy, regardless of the resolved method; in
particular a GET request with a non-empty body map does get sendBody and
bodyParameters. -/
theorem C5_http_body_iff_truthy (params : Obj) :
    objHasKey (HttpRequestTemplate.mapParameters params) "sendBody"
      = (jsGet params "body").truthy
    ∧ objHasKey (HttpRequestTemplate.mapParameters params) "bodyParameters"
      = (jsGet params "body").truthy := by
  unfold HttpRequestTemplate.mapParameters
  by_cases hb : (jsGet params "body").truthy = true
  · by_cases hh : ((jsGet params "headers").truthy
        && (jsGet params "headers").isObjectType) = true
    · simp [hb, hh, objHasKey, listGet?]
    · simp [hb, hh, objHasKey, listGet?]
  · have hb2 : (jsGet params "body").truthy = false := by
      cases h : (jsGet params "body").truthy
      · rfl
      · exact absurd h hb
    by_cases hh : ((jsGet params "headers").truthy
        && (jsGet params "headers").isObjectType) = true
    · simp [hb2, hh, objHasKey, listGet?]
    · simp [hb2, hh, objHasKey, listGet?]

/-- C7: a workflow whose single connection declaration names two
undeclared endpoints yields exactly two validation errors (one per
unresolved endpoint name), and compilation never silently succeeds: with
validation on, generation is not attempted and no workflow is returned;
with validation off, generation fails on the unknown endpoint — either
way the result is unsuccessful with no workflow. -/
theorem C7_dangling_connection (nm s t : String) (strict : Bool)
    (gopts : GeneratorOptions) (nowStr : String)
    (envf : String → Option String) (ids : Nat → String) :
    validateProgram ⟨⟨nm, [], [], [], [⟨⟨s, none⟩, ⟨t, none⟩⟩]⟩⟩
      = [vErr ("Connection source node " ++ sq ++ s ++ sq ++ " does not exist"),
         vErr ("Connection target node " ++ sq ++ t ++ sq ++ " does not exist")]
    ∧ ∀ validate : Bool,
        (compileAst validate strict gopts nowStr envf ids
            ⟨⟨nm, [], [], [], [⟨⟨s, none⟩, ⟨t, none⟩⟩]⟩⟩).success = false
        ∧ (compileAst validate strict gopts nowStr envf ids
            ⟨⟨nm, [], [], [], [⟨⟨s, none⟩, ⟨t, none⟩⟩]⟩⟩).workflow = none := by
  refine ⟨rfl, ?_⟩
  intro validate
  cases validate
  · exact ⟨rfl, rfl⟩
  · exact ⟨rfl, rfl⟩

/-- Generation of a node list containing a module entry always fails. -/
theorem generateNodes_module_error (opts : EffectiveOptions) (env : Env)
    (nowStr : String) (envf : String → Option String) (ids : Nat → String) :
    ∀ (entries : List NodeEntry) (st : GenSt),
      (∃ m, NodeEntry.moduleDecl m ∈ entries) →
      ∃ e, generateNodes opts env nowStr envf ids entries st = .error e := by
  intro entries
  induction entries with
  | nil =>
    intro st hm
    obtain ⟨m, hm⟩ := hm
    cases hm
  | cons entry rest ih =>
    intro st hm
    obtain ⟨m, hm⟩ := hm
    cases entry with
    | moduleDecl d =>
      exact ⟨"Module resolution not implemented yet",
        by simp [generateNodes, generateNode, ebind]⟩
    | node nd =>
      have hm2 : NodeEntry.moduleDecl m ∈ rest := by
        cases hm with
        | tail _ h => exact h
      cases hgen : generateNode opts env nowStr envf ids (.node nd) st with
      | error msg => exact ⟨msg, by simp [generateNodes, hgen, ebind]⟩
      | ok p =>
        obtain ⟨n, st2⟩ := p
        obtain ⟨e, he⟩ := ih st2 ⟨m, hm2⟩
        exact ⟨e, by simp [generateNodes, hgen, he, ebind]⟩

/-- C8: whenever any node entry of the workflow is a module declaration,
generation fails and produces no output graph; the module entry itself
always raises the explicit module-resolution-unsupported error (it is
never skipped or treated as a no-op). -/
theorem C8_module_fails (gopts : GeneratorOptions) (nowStr : String)
    (envf : String → Option String) (ids : Nat → String) (prog : Program)
    (hm : ∃ m, NodeEntry.moduleDecl m ∈ prog.workflow.nodes) :
    (∃ e, generate gopts nowStr envf ids prog = .error e)
    ∧ ∀ (opts : EffectiveOptions) (env : Env) (m : ModuleDeclaration)
        (st : GenSt),
        generateNode opts env nowStr envf ids (.moduleDecl m) st
          = .error "Module resolution not implemented yet" := by
  refine ⟨?_, fun opts env m st => rfl⟩
  unfold generate
  cases hpp : processParameters nowStr envf prog.workflow.parameters ⟨[], []⟩ with
  | error msg => exact ⟨msg, by simp [hpp, ebind]⟩
  | ok env1 =>
    cases hpv : processVariables nowStr envf prog.workflow.vars env1 with
    | error msg => exact ⟨msg, by simp [hpp, hpv, ebind]⟩
    | ok env =>
      obtain ⟨e, he⟩ := generateNodes_module_error (resolveOptions gopts) env
        nowStr envf ids prog.workflow.nodes
        ⟨0, (resolveOptions gopts).startPosition, []⟩ hm
      exact ⟨e, by simp [hpp, hpv, he, ebind]⟩

/-- C8 witness: a workflow whose only entry is a module declaration. -/
theorem C8_witness :
    ∃ e, generate {} "NOW" (fun _ => none) (idsConst "mid")
      ⟨⟨"w", [], [], [.moduleDecl ⟨"m", "p", []⟩], []⟩⟩ = .error e :=
  (C8_module_fails {} "NOW" (fun _ => none) (idsConst "mid")
    ⟨⟨"w", [], [], [.moduleDecl ⟨"m", "p", []⟩], []⟩⟩
    ⟨⟨"m", "p", []⟩, List.Mem.head _⟩).1

/-- Fresh-name step of `getNodePosition` under auto-layout. -/
theorem getNodePosition_fresh (opts : EffectiveOptions) (name : String)
    (st : GenSt) (hA : opts.autoLayout = true)
    (hf : listGet? st.nodePositions name = none) :
    getNodePosition opts name st =
      (st.cur, ⟨st.ctr, (st.cur.1 + opts.spacing, st.cur.2),
                listSet st.nodePositions name st.cur⟩) := by
  unfold getNodePosition
  rw [hf, hA]
  rfl

/-- Inversion of a successful `generateNode` on a node declaration:
position, name and the layout components of the state. -/
theorem generateNode_node_inv (opts : EffectiveOptions) (env : Env)
    (nowStr : String) (envf : String → Option String) (ids : Nat → String)
    (nd : NodeDeclaration) (st : GenSt) (n : N8nNode) (st' : GenSt)
    (h : generateNode opts env nowStr envf ids (.node nd) st = .ok (n, st')) :
    n.position = (getNodePosition opts nd.name st).1
    ∧ n.name = nd.name
    ∧ st'.cur = (getNodePosition opts nd.name st).2.cur
    ∧ st'.nodePositions = (getNodePosition opts nd.name st).2.nodePositions := by
  replace h : generateNodeDecl opts env nowStr envf ids nd st = .ok (n, st') := h
  unfold generateNodeDecl at h
  obtain ⟨ty, hmt, h⟩ := ebind_ok_inv h
  obtain ⟨pc, hp, h⟩ := ebind_ok_inv h
  cases h
  exact ⟨rfl, rfl, rfl, rfl⟩

/-- C9: with auto-layout enabled, start position at the origin and spacing
200, three sequentially declared nodes (distinct names, no explicit
position handling — the generator always auto-places) receive positions
(0,0), (200,0) and (400,0) in declaration order. -/
theorem C9_auto_layout (gopts : GeneratorOptions) (nowStr : String)
    (envf : String → Option String) (ids : Nat → String)
    (nm : String) (ps : List ParameterDeclaration)
    (vs : List VariableDeclaration) (conns : List ConnectionDeclaration)
    (n1 n2 n3 : NodeDeclaration) (w : N8nWorkflow)
    (hA : (resolveOptions gopts).autoLayout = true)
    (hS : (resolveOptions gopts).startPosition = (0, 0))
    (hP : (resolveOptions gopts).spacing = 200)
    (h12 : ¬ n2.name = n1.name) (h13 : ¬ n3.name = n1.name)
    (h23 : ¬ n3.name = n2.name)
    (hgen : generate gopts nowStr envf ids
      ⟨⟨nm, ps, vs, [.node n1, .node n2, .node n3], conns⟩⟩ = .ok w) :
    w.nodes.map (fun n => n.position) = [(0, 0), (200, 0), (400, 0)] := by
  simp only [generate] at hgen
  obtain ⟨env1, hpp, hgen⟩ := ebind_ok_inv hgen
  obtain ⟨env, hpv, hgen⟩ := ebind_ok_inv hgen
  obtain ⟨p, hgn, hgen⟩ := ebind_ok_inv hgen
  obtain ⟨c, hgc, hgen⟩ := ebind_ok_inv hgen
  simp only [generateNodes] at hgn
  obtain ⟨q1, hg1, hgn⟩ := ebind_ok_inv hgn
  obtain ⟨r2, h2, hgn⟩ := ebind_ok_inv hgn
  obtain ⟨q2, hg2, h2⟩ := ebind_ok_inv h2
  obtain ⟨r3, h3, h2⟩ := ebind_ok_inv h2
  obtain ⟨q3, hg3, h3⟩ := ebind_ok_inv h3
  obtain ⟨node1, st1⟩ := q1
  obtain ⟨node2, st2⟩ := q2
  obtain ⟨node3, st3⟩ := q3
  cases h3
  cases h2
  cases hgn
  cases hgen
  -- positions, step by step
  have i1 := generateNode_node_inv _ _ _ _ _ _ _ _ _ hg1
  have hpos1 := getNodePosition_fresh (resolveOptions gopts) n1.name
    ⟨0, (resolveOptions gopts).startPosition, []⟩ hA rfl
  rw [hpos1] at i1
  obtain ⟨hp1, hn1, hc1, hm1⟩ := i1
  have i2 := generateNode_node_inv _ _ _ _ _ _ _ _ _ hg2
  have h21 : ¬ n1.name = n2.name := fun h => h12 h.symm
  have h31 : ¬ n1.name = n3.name := fun h => h13 h.symm
  have h32 : ¬ n2.name = n3.name := fun h => h23 h.symm
  have hget2 : listGet? st1.nodePositions n2.name = none := by
    rw [hm1]
    simp [listSet, listGet?, h21]
  have hpos2 := getNodePosition_fresh (resolveOptions gopts) n2.name st1 hA hget2
  rw [hpos2] at i2
  obtain ⟨hp2, hn2, hc2, hm2⟩ := i2
  have i3 := generateNode_node_inv _ _ _ _ _ _ _ _ _ hg3
  have hget3 : listGet? st2.nodePositions n3.name = none := by
    rw [hm2, hm1]
    simp [listSet, listGet?, h21, h31, h32]
  have hpos3 := getNodePosition_fresh (resolveOptions gopts) n3.name st2 hA hget3
  rw [hpos3] at i3
  obtain ⟨hp3, hn3, hc3, hm3⟩ := i3
  simp only [List.map]
  rw [hp1, hp2, hp3, hc2, hc1]
  simp [hS, hP]
  norm_num

/-- C9 witness: three manual-trigger nodes under the default options. -/
theorem C9_witness :
    ∃ w, generate {} "NOW" (fun _ => none) (idsConst "nid")
        ⟨⟨"w", [], [], [.node ⟨"a", "trigger.manual", [], none⟩,
                        .node ⟨"b", "trigger.manual", [], none⟩,
                        .node ⟨"c", "trigger.manual", [], none⟩], []⟩⟩ = .ok w
      ∧ w.nodes.map (fun n => n.position) = [(0, 0), (200, 0), (400, 0)] :=
  ⟨_, rfl,
   C9_auto_layout {} "NOW" (fun _ => none) (idsConst "nid") "w" [] [] []
     ⟨"a", "trigger.manual", [], none⟩ ⟨"b", "trigger.manual", [], none⟩
     ⟨"c", "trigger.manual", [], none⟩ _ rfl rfl rfl
     (by decide) (by decide) (by decide) rfl⟩

/-! Invariants of the generated connections map (claim C10). -/

/-- A connection entry as the claim requires it: type main, input 0. -/
def goodNC (nc : NodeConnection) : Bool := nc.type == "main" && nc.index == 0

/-- All entries of one slot are good (holes hold no entries). -/
def goodSlot (s : Option (List NodeConnection)) : Bool := (s.getD []).all goodNC

/-- All entries of a slot array are good. -/
def goodSlots (slots : Slots) : Bool := slots.all goodSlot

/-- All entries of one source's map are good. -/
def goodNCMap (m : NodeConnectionsMap) : Bool := m.all fun ts => goodSlots ts.2

/-- All entries of a connections map are good. -/
def goodWC (r : WorkflowConnections) : Bool := r.all fun snc => goodNCMap snc.2

theorem all_set {α : Type} (p : α → Bool) :
    ∀ (l : List α) (i : Nat) (a : α),
      l.all p = true → p a = true → (l.set i a).all p = true := by
  intro l
  induction l with
  | nil => intro i a h _; simp [List.set, h]
  | cons b rest ih =>
    intro i a h hp
    cases i with
    | zero =>
      simp only [List.set, List.all_cons, Bool.and_eq_true] at h ⊢
      exact ⟨hp, h.2⟩
    | succ j =>
      simp only [List.set, List.all_cons, Bool.and_eq_true] at h ⊢
      exact ⟨h.1, ih j a h.2 hp⟩

theorem all_listSet {α : Type} (p : String × α → Bool) :
    ∀ (l : List (String × α)) (k : String) (v : α),
      l.all p = true → p (k, v) = true → (listSet l k v).all p = true := by
  intro l
  induction l with
  | nil => intro k v _ hp; simp [listSet, hp]
  | cons kv rest ih =>
    intro k v hall hp
    obtain ⟨k2, w⟩ := kv
    simp only [List.all_cons, Bool.and_eq_true] at hall
    simp only [listSet]
    by_cases hk : k2 = k
    · simp [hk, hp, List.all_cons, hall.2]
    · simp [hk, List.all_cons, hall.1, ih k v hall.2 hp]

theorem listGet?_mem {α : Type} :
    ∀ (l : List (String × α)) (k : String) (v : α),
      listGet? l k = some v → (k, v) ∈ l := by
  intro l
  induction l with
  | nil => intro k v h; simp [listGet?] at h
  | cons kv rest ih =>
    intro k v h
    obtain ⟨k2, w⟩ := kv
    simp only [listGet?] at h
    by_cases hk : k2 = k
    · rw [if_pos hk] at h
      cases h
      subst hk
      exact List.Mem.head _
    · rw [if_neg hk] at h
      exact List.Mem.tail _ (ih k v h)

theorem getElem?_mem {α : Type} :
    ∀ (l : List α) (i : Nat) (a : α), l[i]? = some a → a ∈ l := by
  intro l
  induction l with
  | nil => intro i a h; simp at h
  | cons b rest ih =>
    intro i a h
    cases i with
    | zero =>
      simp only [List.getElem?_cons_zero] at h
      cases h
      exact List.Mem.head _
    | succ j =>
      simp only [List.getElem?_cons_succ] at h
      exact List.Mem.tail _ (ih j a h)

theorem goodSlot_getD (slots : Slots) (i : Nat) (hs : goodSlots slots = true) :
    ((slots.getD i none).getD []).all goodNC = true := by
  rw [List.getD_eq_getElem?_getD]
  cases hg : slots[i]? with
  | none => simp
  | some s =>
    have hmem : s ∈ slots := getElem?_mem slots i s hg
    have h2 := (List.all_eq_true.mp hs) s hmem
    simpa [goodSlot] using h2

theorem goodSlots_ensure (slots : Slots) (idx : Nat)
    (hs : goodSlots slots = true) : goodSlots (slotsEnsure slots idx) = true := by
  unfold slotsEnsure
  by_cases h : slots.length ≤ idx
  · rw [if_pos h]
    simp only [goodSlots, List.all_append, Bool.and_eq_true]
    refine ⟨hs, ?_⟩
    rw [List.all_eq_true]
    intro x hx
    rw [List.eq_of_mem_replicate hx]
    rfl
  · rw [if_neg h]
    exact hs

theorem goodSlots_push (slots : Slots) (idx : Nat) (nc : NodeConnection)
    (hs : goodSlots slots = true) (hnc : goodNC nc = true) :
    goodSlots (slotsPush slots idx nc) = true := by
  unfold slotsPush
  apply all_set
  · exact goodSlots_ensure slots idx hs
  · show ((((slotsEnsure slots idx).getD idx none).getD [] ++ [nc]).all goodNC) = true
    rw [List.all_append]
    simp only [Bool.and_eq_true]
    exact ⟨goodSlot_getD _ idx (goodSlots_ensure slots idx hs), by simp [hnc]⟩

theorem mapConnectionType_main (p : String) : mapConnectionType p = "main" := by
  unfold mapConnectionType
  split_ifs <;> rfl

theorem mapOutputIndex_spec (p : String) :
    mapOutputIndex p = if p = "false" then 1 else 0 := by
  unfold mapOutputIndex
  by_cases h1 : p = "main" ∨ p = "output" ∨ p = "true"
  · rw [if_pos h1]
    have hne : ¬ p = "false" := by
      rcases h1 with h | h | h <;> subst h <;> decide
    rw [if_neg hne]
  · rw [if_neg h1]

theorem goodNCMap_get (acc : WorkflowConnections) (src : String)
    (hg : goodWC acc = true) : goodNCMap ((listGet? acc src).getD []) = true := by
  cases hq : listGet? acc src with
  | none => rfl
  | some m =>
    have hmem := listGet?_mem acc src m hq
    have h2 := (List.all_eq_true.mp hg) (src, m) hmem
    simpa using h2

theorem goodSlots_get (m : NodeConnectionsMap) (t : String)
    (hg : goodNCMap m = true) : goodSlots ((listGet? m t).getD []) = true := by
  cases hq : listGet? m t with
  | none => rfl
  | some slots =>
    have hmem := listGet?_mem m t slots hq
    have h2 := (List.all_eq_true.mp hg) (t, slots) hmem
    simpa using h2

theorem connectionsGo_good (nodeNames : List String) :
    ∀ (conns : List ConnectionDeclaration) (acc r : WorkflowConnections),
      connectionsGo nodeNames conns acc = .ok r →
      goodWC acc = true → goodWC r = true := by
  intro conns
  induction conns with
  | nil =>
    intro acc r h hg
    cases h
    exact hg
  | cons conn rest ih =>
    intro acc r h hg
    unfold connectionsGo at h
    by_cases hsrc : conn.source.node ∉ nodeNames
    · rw [if_pos hsrc] at h
      exact absurd h (by simp)
    · rw [if_neg hsrc] at h
      by_cases htgt : conn.target.node ∉ nodeNames
      · rw [if_pos htgt] at h
        exact absurd h (by simp)
      · rw [if_neg htgt] at h
        refine ih _ r h ?_
        apply all_listSet
        · exact hg
        · show goodNCMap (listSet _ _ _) = true
          apply all_listSet
          · exact goodNCMap_get acc conn.source.node hg
          · show goodSlots (slotsPush _ _ _) = true
            apply goodSlots_push
            · exact goodSlots_get _ _ (goodNCMap_get acc conn.source.node hg)
            · show goodNC ⟨conn.target.node,
                mapConnectionType (jsOrStr conn.source.port "main"), 0⟩ = true
              simp [goodNC, mapConnectionType_main]

theorem goodWC_entries (r : WorkflowConnections) (h : goodWC r = true) :
    ∀ nc ∈ allConnEntries r, nc.type = "main" ∧ nc.index = 0 := by
  intro nc hm
  unfold allConnEntries at hm
  simp only [List.mem_flatten, List.mem_map] at hm
  obtain ⟨l1, ⟨snc, hsnc, hl1⟩, hnc1⟩ := hm
  subst hl1
  simp only [List.mem_flatten, List.mem_map] at hnc1
  obtain ⟨l2, ⟨ts, hts, hl2⟩, hnc2⟩ := hnc1
  subst hl2
  simp only [List.mem_flatten, List.mem_map] at hnc2
  obtain ⟨l3, ⟨slot, hslot, hl3⟩, hnc3⟩ := hnc2
  subst hl3
  have h1 := (List.all_eq_true.mp h) snc hsnc
  have h2 := (List.all_eq_true.mp h1) ts hts
  have h3 := (List.all_eq_true.mp h2) slot hslot
  have h4 := (List.all_eq_true.mp h3) nc hnc3
  simpa [goodNC] using h4

theorem connectionsGo_target_port_irrelevant (nodeNames : List String) :
    ∀ (conns conns2 : List ConnectionDeclaration)
      (acc : WorkflowConnections),
      List.Forall₂ (fun c c2 : ConnectionDeclaration =>
        c.source = c2.source ∧ c.target.node = c2.target.node) conns conns2 →
      connectionsGo nodeNames conns acc = connectionsGo nodeNames conns2 acc := by
  intro conns
  induction conns with
  | nil =>
    intro conns2 acc hf
    cases hf
    rfl
  | cons c rest ih =>
    intro conns2 acc hf
    cases hf with
    | cons hrel hrest =>
      rename_i c2 rest2
      obtain ⟨hsrc, htgt⟩ := hrel
      simp only [connectionsGo]
      rw [hsrc, htgt]
      by_cases h1 : c2.source.node ∉ nodeNames
      · simp [h1]
      · by_cases h2 : c2.target.node ∉ nodeNames
        · simp [h1, h2]
        · simp only [h1, h2, if_false]
          exact ih rest2 _ hrest

/-- C10: every generated connection entry carries connection type main and
input index 0; the declared target input port names never influence the
result (two connection lists equal up to target ports generate the same
map); and the output slot is determined by the source port alone — false
goes to slot 1, every other name (main, output, true, or anything else)
to slot 0. -/
theorem C10_connection_shape (conns : List ConnectionDeclaration)
    (nodes : List N8nNode) (r : WorkflowConnections)
    (hgen : generateConnections conns nodes = .ok r) :
    (∀ nc ∈ allConnEntries r, nc.type = "main" ∧ nc.index = 0)
    ∧ (∀ conns2 : List ConnectionDeclaration,
        List.Forall₂ (fun c c2 : ConnectionDeclaration =>
          c.source = c2.source ∧ c.target.node = c2.target.node) conns conns2 →
        generateConnections conns2 nodes = .ok r)
    ∧ (∀ p, mapConnectionType p = "main")
    ∧ (∀ p, mapOutputIndex p = if p = "false" then 1 else 0) := by
  refine ⟨?_, ?_, mapConnectionType_main, mapOutputIndex_spec⟩
  · exact goodWC_entries r
      (connectionsGo_good (nodes.map N8nNode.name) conns [] r hgen rfl)
  · intro conns2 hf
    unfold generateConnections at hgen ⊢
    rw [← connectionsGo_target_port_irrelevant (nodes.map N8nNode.name)
      conns conns2 [] hf]
    exact hgen

/-- C10 witness: the port mapping facts extracted at the false port. -/
theorem C10_witness :
    mapConnectionType "false" = "main" ∧ mapOutputIndex "false" = 1 := by
  refine ⟨(C10_connection_shape [] [] [] rfl).2.2.1 "false", ?_⟩
  have h := (C10_connection_shape [] [] [] rfl).2.2.2 "false"
  simpa using h

/-! Stepping lemmas for the template scanner, and the segment-substitution
theorem behind claim C6. -/

theorem stringEta (s : String) : String.mk s.toList = s := rfl

theorem strToList_append (a b : String) :
    (a ++ b).toList = a.toList ++ b.toList := String.data_append a b

theorem scanGo_nil (resolve : String → String) : scanGo resolve [] = [] := rfl

theorem scanGo_single (resolve : String → String) (c : Char) :
    scanGo resolve [c] = [c] := by
  by_cases hc : c = '$'
  · subst hc; rfl
  · simp [scanGo, hc]

theorem scanGo_cons_ne_dollar (resolve : String → String) (c : Char)
    (t : List Char) (h : ¬ c = '$') :
    scanGo resolve (c :: t) = c :: scanGo resolve t := by
  cases t with
  | nil => simp [scanGo, h]
  | cons d t2 => simp [scanGo, h]

theorem scanGo_dollar_ne_brace (resolve : String → String) (d : Char)
    (t : List Char) (h : ¬ d = '\x7b') :
    scanGo resolve ('$' :: d :: t) = '$' :: scanGo resolve (d :: t) := by
  simp [scanGo, h]

theorem scanGo_start (resolve : String → String) (t : List Char) :
    scanGo resolve ('$' :: '\x7b' :: t) = scanSpan resolve [] t := by
  simp [scanGo]

theorem scanSpan_cons_ne (resolve : String → String) (acc : List Char)
    (c : Char) (t : List Char) (h : ¬ c = '\x7d') :
    scanSpan resolve acc (c :: t) = scanSpan resolve (acc ++ [c]) t := by
  simp [scanSpan, h]

theorem scanSpan_brace (resolve : String → String) (acc : List Char)
    (t : List Char) :
    scanSpan resolve acc ('\x7d' :: t) =
      (if acc.isEmpty then '$' :: '\x7b' :: '\x7d' :: scanGo resolve t
       else (resolve (String.mk acc)).toList ++ scanGo resolve t) := by
  simp [scanSpan]

theorem hasTemplateStart_cons (c d : Char) (rest : List Char)
    (h : hasTemplateStart (c :: d :: rest) = false) :
    ¬ (c = '$' ∧ d = '\x7b') ∧ hasTemplateStart (d :: rest) = false := by
  simp only [hasTemplateStart, Bool.or_eq_false_iff, Bool.and_eq_false_imp,
    beq_iff_eq] at h
  obtain ⟨h1, h2⟩ := h
  refine ⟨?_, h2⟩
  intro hcd
  exact absurd (h1 hcd.1) (by simp [hcd.2])

theorem scanGo_append (resolve : String → String) :
    ∀ (lit cs : List Char), hasTemplateStart lit = false →
      (cs = [] ∨ ∃ t, cs = '$' :: t) →
      scanGo resolve (lit ++ cs) = lit ++ scanGo resolve cs := by
  intro lit
  induction lit with
  | nil => intro cs _ _; rfl
  | cons c rest ih =>
    intro cs hts hcs
    cases rest with
    | nil =>
      rcases hcs with rfl | ⟨t, rfl⟩
      · rw [List.append_nil, scanGo_single, scanGo_nil, List.append_nil]
      · by_cases hc : c = '$'
        · subst hc
          rw [List.singleton_append]
          exact scanGo_dollar_ne_brace resolve '$' t (by decide)
        · rw [List.singleton_append]
          exact scanGo_cons_ne_dollar resolve c ('$' :: t) hc
    | cons d rest2 =>
      obtain ⟨hcd, hts2⟩ := hasTemplateStart_cons c d rest2 hts
      by_cases hc : c = '$'
      · subst hc
        have hd : ¬ d = '\x7b' := fun hdd => hcd ⟨rfl, hdd⟩
        rw [List.cons_append, List.cons_append,
            scanGo_dollar_ne_brace resolve d _ hd,
            ← List.cons_append, ih cs hts2 hcs]
        rfl
      · rw [List.cons_append, scanGo_cons_ne_dollar resolve c _ hc,
            ih cs hts2 hcs]
        rfl

theorem scanSpan_all_no_brace (resolve : String → String) :
    ∀ (span acc cs : List Char),
      (∀ ch ∈ span, ¬ ch = '\x7d') →
      scanSpan resolve acc (span ++ '\x7d' :: cs) =
        (if (acc ++ span).isEmpty then
           '$' :: '\x7b' :: '\x7d' :: scanGo resolve cs
         else (resolve (String.mk (acc ++ span))).toList ++ scanGo resolve cs) := by
  intro span
  induction span with
  | nil =>
    intro acc cs _
    simpa using scanSpan_brace resolve acc cs
  | cons ch rest ih =>
    intro acc cs hnb
    have hch : ¬ ch = '\x7d' := hnb ch (List.Mem.head _)
    rw [List.cons_append, scanSpan_cons_ne resolve acc ch _ hch,
        ih (acc ++ [ch]) cs (fun x hx => hnb x (List.Mem.tail _ hx))]
    simp [List.append_assoc]

theorem scanGo_span (resolve : String → String) (span cs : List Char)
    (hne : span.isEmpty = false) (hnb : ∀ ch ∈ span, ¬ ch = '\x7d') :
    scanGo resolve ('$' :: '\x7b' :: (span ++ '\x7d' :: cs)) =
      (resolve (String.mk span)).toList ++ scanGo resolve cs := by
  rw [scanGo_start, scanSpan_all_no_brace resolve span [] cs hnb]
  simp [hne]

theorem scanGo_segments (resolve : String → String) :
    ∀ (segs : List (String × String)) (finalLit : String),
      (∀ seg ∈ segs,
        hasTemplateStart seg.1.toList = false ∧ spanOk seg.2 = true) →
      hasTemplateStart finalLit.toList = false →
      scanGo resolve (assembleSegments segs finalLit).toList
        = (renderSegments resolve segs finalLit).toList := by
  intro segs
  induction segs with
  | nil =>
    intro finalLit _ hf
    simp only [assembleSegments, renderSegments]
    have h := scanGo_append resolve finalLit.toList [] hf (Or.inl rfl)
    simpa [scanGo_nil] using h
  | cons seg rest ih =>
    intro finalLit hl hf
    obtain ⟨lit, span⟩ := seg
    obtain ⟨hlit, hspan⟩ := hl (lit, span) (List.Mem.head _)
    have hspan1 : span.toList.isEmpty = false := by
      simp only [spanOk, Bool.and_eq_true, Bool.not_eq_true'] at hspan
      exact hspan.1
    have hspan2 : ∀ ch ∈ span.toList, ¬ ch = '\x7d' := by
      simp only [spanOk, Bool.and_eq_true, List.all_eq_true,
        Bool.not_eq_true', beq_eq_false_iff_ne, ne_eq] at hspan
      exact hspan.2
    simp only [assembleSegments, renderSegments]
    have htl : (lit ++ "$\x7b" ++ span ++ "\x7d" ++ assembleSegments rest finalLit).toList
        = lit.toList ++ ('$' :: '\x7b' ::
            (span.toList ++ '\x7d' :: (assembleSegments rest finalLit).toList)) := by
      simp [strToList_append]
    rw [htl,
        scanGo_append resolve lit.toList _ hlit (Or.inr ⟨_, rfl⟩),
        scanGo_span resolve span.toList _ hspan1 hspan2,
        ih finalLit (fun sg hs => hl sg (List.Mem.tail _ hs)) hf,
        stringEta span]
    simp [strToList_append]

/-- C6: every dollar-brace span of a template string is substituted
independently: for any decomposition of the raw template into literal
parts (free of span markers) and well-formed spans, the evaluated result
is the concatenation of the literals with each span replaced by its
resolution; and span resolution follows the claimed order — the trimmed
span text is looked up as an exact variable name (stringified value),
else as an exact parameter name (stringified resolved default), else the
built-in prefixes now( (the timestamp rendering) and env( (the named
environment value, empty string if absent) apply, and otherwise the span
is left verbatim with its delimiters. -/
theorem C6_template_resolution (env : Env) (nowStr : String)
    (envf : String → Option String) (segs : List (String × String))
    (finalLit : String)
    (hl : ∀ seg ∈ segs,
      hasTemplateStart seg.1.toList = false ∧ spanOk seg.2 = true)
    (hf : hasTemplateStart finalLit.toList = false) :
    evaluateTemplate env nowStr envf (assembleSegments segs finalLit)
      = renderSegments (resolveSpan env nowStr envf) segs finalLit
    ∧ ∀ inner : String,
        resolveSpan env nowStr envf inner
          = resolveSpanSpec env nowStr envf inner := by
  constructor
  · unfold evaluateTemplate
    rw [scanGo_segments (resolveSpan env nowStr envf) segs finalLit hl hf]
    exact stringEta _
  · intro inner
    unfold resolveSpan resolveSpanSpec
    cases h1 : listGet? env.vars (jsTrim inner) with
    | some v => simp [h1]
    | none =>
      cases h2 : listGet? env.parameters (jsTrim inner) with
      | some p => simp [h1, h2]
      | none => simp [h1, h2]

/-- C6 witness: a variable span between two literal parts. -/
theorem C6_witness :
    evaluateTemplate ⟨[], [("v", .vNum 7)]⟩ "NOW" (fun _ => none)
        (assembleSegments [("a ", "v")] " b")
      = renderSegments (resolveSpan ⟨[], [("v", .vNum 7)]⟩ "NOW" (fun _ => none))
          [("a ", "v")] " b" :=
  (C6_template_resolution ⟨[], [("v", .vNum 7)]⟩ "NOW" (fun _ => none)
    [("a ", "v")] " b" (by decide) (by decide)).1

/-! Determinism up to freshly drawn identifiers (claim C3): two runs of
the generator that differ only in their id streams agree after erasing
every generated identifier. -/

/-- Scrub of a template result. -/
def scrubPair (pc : Obj × Nat) : Obj × Nat := (scrubObj pc.1, pc.2)

/-- Scrub of a node-generation result. -/
def scrubNodePair (p : N8nNode × GenSt) : N8nNode × GenSt := (scrubNode p.1, p.2)

/-- Scrub of a node-list generation result. -/
def scrubNSPair (p : List N8nNode × GenSt) : List N8nNode × GenSt :=
  (p.1.map scrubNode, p.2)

theorem scrubList_map_congr {α : Type} :
    ∀ (l : List α) (f g : α → Value),
      (∀ x ∈ l, scrubValue (f x) = scrubValue (g x)) →
      scrubList (l.map f) = scrubList (l.map g) := by
  intro l
  induction l with
  | nil => intro f g _; rfl
  | cons x rest ih =>
    intro f g h
    simp only [List.map_cons, scrubList]
    rw [h x (List.Mem.head _), ih f g fun y hy => h y (List.Mem.tail _ hy)]

theorem ifMapParameters_scrub (ids ids' : Nat → String) (params : Obj)
    (ctr : Nat) :
    Except.map scrubPair (IfTemplate.mapParameters ids params ctr)
      = Except.map scrubPair (IfTemplate.mapParameters ids' params ctr) := by
  unfold IfTemplate.mapParameters
  cases jsOr (jsGet params "condition") (.vStr "") with
  | vStr c =>
    show Except.map scrubPair
        (match ifComparisonMatch c with
          | some (l, op, r) => .ok (ifMatchObj (ids ctr) l op r, ctr + 1)
          | none => .ok (ifFallbackObj (ids ctr) c, ctr + 1))
      = Except.map scrubPair
        (match ifComparisonMatch c with
          | some (l, op, r) => .ok (ifMatchObj (ids' ctr) l op r, ctr + 1)
          | none => .ok (ifFallbackObj (ids' ctr) c, ctr + 1))
    cases ifComparisonMatch c with
    | some t => obtain ⟨l, op, r⟩ := t; rfl
    | none => rfl
  | vNull => rfl
  | vBool b => rfl
  | vNum n => rfl
  | vArr xs => rfl
  | vObj fields => rfl

theorem setAssignmentObj_scrub (a b : String) (kv : String × Value) :
    scrubValue (setAssignmentObj a kv) = scrubValue (setAssignmentObj b kv) := rfl

theorem setMapParameters_scrub (ids ids' : Nat → String) (params : Obj)
    (ctr : Nat) :
    scrubPair (SetTemplate.mapParameters ids params ctr)
      = scrubPair (SetTemplate.mapParameters ids' params ctr) := by
  have hA : ∀ E : List (String × Value),
      scrubList (((List.range E.length).zip E).map
        fun p => setAssignmentObj (ids (ctr + p.1)) p.2)
      = scrubList (((List.range E.length).zip E).map
        fun p => setAssignmentObj (ids' (ctr + p.1)) p.2) :=
    fun E => scrubList_map_congr _ _ _ fun x _ => rfl
  unfold SetTemplate.mapParameters
  exact congrArg
    (fun l => ((("assignments",
        Value.vObj [("assignments", Value.vArr l)]) ::
        ("options", Value.vObj []) :: [] : Obj),
      ctr + (if (jsGet params "assignments").truthy
          && (jsGet params "assignments").isObjectType
        then jsEntries (jsGet params "assignments") else []).length)) (hA _)

theorem mapParameters_scrub (tk : TemplateKind) (ids ids' : Nat → String)
    (params : Obj) (ctr : Nat) :
    Except.map scrubPair (TemplateKind.mapParameters tk ids params ctr)
      = Except.map scrubPair (TemplateKind.mapParameters tk ids' params ctr) := by
  cases tk with
  | ifNode => exact ifMapParameters_scrub ids ids' params ctr
  | set =>
    show Except.map scrubPair (.ok (SetTemplate.mapParameters ids params ctr))
      = Except.map scrubPair (.ok (SetTemplate.mapParameters ids' params ctr))
    simp only [Except.map]
    rw [setMapParameters_scrub ids ids' params ctr]
  | httpRequest => rfl
  | gmail => rfl
  | scheduleTrigger => rfl
  | code => rfl
  | manualTrigger => rfl

theorem generateNodeParameters_scrub (env : Env) (nowStr : String)
    (envf : String → Option String) (ids ids' : Nat → String)
    (params : List (String × Expression)) (n8nType : String) (ctr : Nat) :
    Except.map scrubPair
        (generateNodeParameters env nowStr envf ids params n8nType ctr)
      = Except.map scrubPair
        (generateNodeParameters env nowStr envf ids' params n8nType ctr) := by
  unfold generateNodeParameters
  cases evalRawParams env nowStr envf params [] with
  | error msg => rfl
  | ok rawParams =>
    simp only [ebind_ok]
    cases getNodeTemplate n8nType with
    | some tk => exact mapParameters_scrub tk ids ids' rawParams ctr
    | none => rfl

theorem generateNode_scrub (opts : EffectiveOptions) (env : Env)
    (nowStr : String) (envf : String → Option String)
    (ids ids' : Nat → String) (entry : NodeEntry) (st : GenSt) :
    Except.map scrubNodePair (generateNode opts env nowStr envf ids entry st)
      = Except.map scrubNodePair
        (generateNode opts env nowStr envf ids' entry st) := by
  cases entry with
  | moduleDecl d => rfl
  | node nd =>
    show Except.map scrubNodePair (generateNodeDecl opts env nowStr envf ids nd st)
      = Except.map scrubNodePair (generateNodeDecl opts env nowStr envf ids' nd st)
    unfold generateNodeDecl
    cases mapNodeType nd.nodeType with
    | error msg => rfl
    | ok ty =>
      simp only [ebind_ok]
      have h := generateNodeParameters_scrub env nowStr envf ids ids'
        nd.parameters ty (getNodePosition opts nd.name st).2.ctr
      cases h1 : generateNodeParameters env nowStr envf ids nd.parameters ty
          (getNodePosition opts nd.name st).2.ctr with
      | error msg =>
        cases h2 : generateNodeParameters env nowStr envf ids' nd.parameters ty
            (getNodePosition opts nd.name st).2.ctr with
        | error msg2 =>
          rw [h1, h2] at h
          simp only [Except.map, Except.error.injEq] at h
          subst h
          rfl
        | ok pc2 =>
          rw [h1, h2] at h
          exact absurd h (by simp [Except.map])
      | ok pc =>
        cases h2 : generateNodeParameters env nowStr envf ids' nd.parameters ty
            (getNodePosition opts nd.name st).2.ctr with
        | error msg2 =>
          rw [h1, h2] at h
          exact absurd h (by simp [Except.map])
        | ok pc2 =>
          rw [h1, h2] at h
          simp only [Except.map, Except.ok.injEq, scrubPair, Prod.mk.injEq] at h
          obtain ⟨hobj, hctr⟩ := h
          simp [ebind_ok, Except.map, scrubNodePair, scrubNode, hobj, hctr]

theorem generateNodes_scrub (opts : EffectiveOptions) (env : Env)
    (nowStr : String) (envf : String → Option String)
    (ids ids' : Nat → String) :
    ∀ (entries : List NodeEntry) (st : GenSt),
      Except.map scrubNSPair (generateNodes opts env nowStr envf ids entries st)
        = Except.map scrubNSPair
          (generateNodes opts env nowStr envf ids' entries st) := by
  intro entries
  induction entries with
  | nil => intro st; rfl
  | cons e rest ih =>
    intro st
    simp only [generateNodes]
    have h := generateNode_scrub opts env nowStr envf ids ids' e st
    cases h1 : generateNode opts env nowStr envf ids e st with
    | error msg =>
      cases h2 : generateNode opts env nowStr envf ids' e st with
      | error msg2 =>
        rw [h1, h2] at h
        simp only [Except.map, Except.error.injEq] at h
        subst h
        rfl
      | ok p2 =>
        rw [h1, h2] at h
        exact absurd h (by simp [Except.map])
    | ok p =>
      cases h2 : generateNode opts env nowStr envf ids' e st with
      | error msg2 =>
        rw [h1, h2] at h
        exact absurd h (by simp [Except.map])
      | ok p2 =>
        rw [h1, h2] at h
        simp only [Except.map, Except.ok.injEq, scrubNodePair,
          Prod.mk.injEq] at h
        obtain ⟨hnode, hst⟩ := h
        simp only [ebind_ok]
        rw [hst]
        have ih2 := ih p2.2
        cases h3 : generateNodes opts env nowStr envf ids rest p2.2 with
        | error msg =>
          cases h4 : generateNodes opts env nowStr envf ids' rest p2.2 with
          | error msg2 =>
            rw [h3, h4] at ih2
            simp only [Except.map, Except.error.injEq] at ih2
            subst ih2
            rfl
          | ok q2 =>
            rw [h3, h4] at ih2
            exact absurd ih2 (by simp [Except.map])
        | ok q =>
          cases h4 : generateNodes opts env nowStr envf ids' rest p2.2 with
          | error msg2 =>
            rw [h3, h4] at ih2
            exact absurd ih2 (by simp [Except.map])
          | ok q2 =>
            rw [h3, h4] at ih2
            simp only [Except.map, Except.ok.injEq, scrubNSPair,
              Prod.mk.injEq] at ih2
            obtain ⟨hq, hqst⟩ := ih2
            simp only [ebind_ok, Except.map, Except.ok.injEq, scrubNSPair,
              Prod.mk.injEq, List.map_cons]
            exact ⟨by rw [hnode, hq], hqst⟩

theorem scrubNode_name (n : N8nNode) : (scrubNode n).name = n.name := rfl

/-- C3 (amended): for a fixed program, options, timestamp rendering and
environment, two generation runs that differ only in their stream of
freshly drawn identifiers produce the same outcome after erasing every
generated identifier — the instance id, the node ids, and the
per-condition and per-assignment ids that the if and set strategies embed
inside node parameters.  Everything else (names, types, type versions,
positions, connections, and the id-erased parameter maps) is identical;
the raw parameter maps are not, as the counterexample shows. -/
theorem C3_deterministic_up_to_ids (gopts : GeneratorOptions)
    (nowStr : String) (envf : String → Option String)
    (ids ids' : Nat → String) (prog : Program) :
    Except.map scrubWorkflow (generate gopts nowStr envf ids prog)
      = Except.map scrubWorkflow (generate gopts nowStr envf ids' prog) := by
  unfold generate
  cases processParameters nowStr envf prog.workflow.parameters ⟨[], []⟩ with
  | error msg => rfl
  | ok env1 =>
    simp only [ebind_ok]
    cases processVariables nowStr envf prog.workflow.vars env1 with
    | error msg => rfl
    | ok env =>
      simp only [ebind_ok]
      have h := generateNodes_scrub (resolveOptions gopts) env nowStr envf
        ids ids' prog.workflow.nodes ⟨0, (resolveOptions gopts).startPosition, []⟩
      cases h1 : generateNodes (resolveOptions gopts) env nowStr envf ids
          prog.workflow.nodes ⟨0, (resolveOptions gopts).startPosition, []⟩ with
      | error msg =>
        cases h2 : generateNodes (resolveOptions gopts) env nowStr envf ids'
            prog.workflow.nodes ⟨0, (resolveOptions gopts).startPosition, []⟩ with
        | error msg2 =>
          rw [h1, h2] at h
          simp only [Except.map, Except.error.injEq] at h
          subst h
          rfl
        | ok p2 =>
          rw [h1, h2] at h
          exact absurd h (by simp [Except.map])
      | ok p =>
        cases h2 : generateNodes (resolveOptions gopts) env nowStr envf ids'
            prog.workflow.nodes ⟨0, (resolveOptions gopts).startPosition, []⟩ with
        | error msg2 =>
          rw [h1, h2] at h
          exact absurd h (by simp [Except.map])
        | ok p2 =>
          rw [h1, h2] at h
          simp only [Except.map, Except.ok.injEq, scrubNSPair,
            Prod.mk.injEq] at h
          obtain ⟨hmap, hst⟩ := h
          simp only [ebind_ok]
          have hnames : p.1.map N8nNode.name = p2.1.map N8nNode.name := by
            have h5 := congrArg (List.map N8nNode.name) hmap
            simpa [List.map_map, Function.comp, scrubNode_name] using h5
          have hconn : generateConnections prog.workflow.connections p.1
              = generateConnections prog.workflow.connections p2.1 := by
            unfold generateConnections
            rw [hnames]
          rw [hconn, hst]
          cases generateConnections prog.workflow.connections p2.1 with
          | error msg => rfl
          | ok c =>
            simp [ebind_ok, Except.map, scrubWorkflow, hmap]

/-- C3 counterexample: one flow.if node, same source and options, two id
streams — the generated parameter maps differ (the fresh condition id is
embedded in the parameters), so the graphs are not identical up to only
the instance id and node ids. -/
theorem C3_counterexample :
    ¬ nodeParamsOf (generate {} "NOW" (fun _ => none) (idsConst "i1")
        (singleIfProgram (.literal (.vStr "a == b"))))
      = nodeParamsOf (generate {} "NOW" (fun _ => none) (idsConst "i2")
        (singleIfProgram (.literal (.vStr "a == b")))) := by
  intro h
  have h2 := congrArg
    (fun x : Option (List Obj) =>
      x.bind fun l => (l.head?).bind fun o => condField o "id") h
  have h3 : (some (Value.vStr "i1") : Option Value) = some (Value.vStr "i2") := h2
  exact absurd (Value.vStr.inj (Option.some.inj h3)) (by decide)

end Octocep
